import Mathlib

/-!
Verification of the websocket coordination core of `daily-with-express`
(`src/server/src/websocket/connection.js`).

The module keeps three process-local maps:
  connections : socketId -> session data      (JS `Map`)
  rooms       : roomId   -> Set of socketIds  (JS `Map` of `Set`)
  userSockets : userId   -> Set of socketIds  (JS `Map` of `Set`)
and reacts to inbound socket events (room:join, room:leave, audio:toggle,
admin:kick, admin:mute, emergency:alert, ping, disconnect) plus a periodic
stale-connection sweep.

We embed the JS `Map`s as association lists (`List (String × α)`, insertion
ordered, first-match lookup) and JS `Set`s as duplicate-free `List String`
(insertion ordered: `add` appends when absent, `delete` removes the single
occurrence).  Handlers become pure state-transition functions returning the
new state together with the ordered list of outbound events they emitted.
External I/O (Redis mirror writes, logging) carries no information used by
any claim except the `emergencies:active` durable queue, which we model as a
list inside the state (`lPush` prepends).  Timestamps (`new Date()`) are
modelled as `Nat` milliseconds passed in as `now`; the timestamp fields that
the code attaches to outbound event payloads are omitted from the event
datatype since they are just copies of `now`.
-/

namespace DailyWS

/-- First-match association-list lookup: JS `Map.prototype.get`. -/
def lookupA {α : Type} (k : String) : List (String × α) → Option α
  | [] => none
  | (k', v) :: rest => if k' = k then some v else lookupA k rest

/-- Remove every binding of key `k` (the maps we use never hold duplicate
keys, so this is JS `Map.prototype.delete`). -/
def eraseA {α : Type} (k : String) : List (String × α) → List (String × α)
  | [] => []
  | (k', v) :: rest => if k' = k then eraseA k rest else (k', v) :: eraseA k rest

/-- Replace the value at key `k` in place, appending at the end when the key
is absent: JS `Map.prototype.set`. -/
def setA {α : Type} (k : String) (v : α) : List (String × α) → List (String × α)
  | [] => [(k, v)]
  | (k', v') :: rest => if k' = k then (k, v) :: rest else (k', v') :: setA k v rest

/-- Apply `f` to the value stored at key `k` (in-place field mutation of the
object held in a JS `Map`). -/
def updateA {α : Type} (k : String) (f : α → α) : List (String × α) → List (String × α)
  | [] => []
  | (k', v) :: rest =>
    if k' = k then (k', f v) :: updateA k f rest else (k', v) :: updateA k f rest

/-- The key list of an association list. -/
def keysOf {α : Type} (l : List (String × α)) : List String := l.map Prod.fst

/-- JS `Set.prototype.add`: append when absent. -/
def addS (x : String) (l : List String) : List String :=
  if x ∈ l then l else l ++ [x]

section AssocLemmas

variable {α : Type}

@[simp] theorem lookupA_nil (k : String) : lookupA k ([] : List (String × α)) = none := rfl

@[simp] theorem lookupA_cons (k k' : String) (v : α) (l : List (String × α)) :
    lookupA k ((k', v) :: l) = if k' = k then some v else lookupA k l := rfl

theorem lookupA_eraseA (k k' : String) (l : List (String × α)) :
    lookupA k' (eraseA k l) = if k' = k then none else lookupA k' l := by
  induction l with
  | nil => simp [eraseA]
  | cons hd tl ih =>
    obtain ⟨k₀, v₀⟩ := hd
    by_cases h0 : k₀ = k
    · have e1 : eraseA k ((k₀, v₀) :: tl) = eraseA k tl := by
        simp only [eraseA, if_pos h0]
      rw [e1, ih]
      by_cases h1 : k' = k
      · rw [if_pos h1, if_pos h1]
      · rw [if_neg h1, if_neg h1, lookupA_cons]
        have h2 : ¬ k₀ = k' := by rw [h0]; exact fun h => h1 h.symm
        rw [if_neg h2]
    · have e1 : eraseA k ((k₀, v₀) :: tl) = (k₀, v₀) :: eraseA k tl := by
        simp only [eraseA, if_neg h0]
      rw [e1, lookupA_cons, lookupA_cons]
      by_cases h2 : k₀ = k'
      · have h1 : ¬ k' = k := by rw [← h2]; exact h0
        rw [if_pos h2, if_neg h1, if_pos h2]
      · rw [if_neg h2, if_neg h2, ih]

theorem lookupA_setA (k k' : String) (v : α) (l : List (String × α)) :
    lookupA k' (setA k v l) = if k = k' then some v else lookupA k' l := by
  induction l with
  | nil => simp [setA, lookupA_cons]
  | cons hd tl ih =>
    obtain ⟨k₀, v₀⟩ := hd
    by_cases h0 : k₀ = k
    · have e1 : setA k v ((k₀, v₀) :: tl) = (k, v) :: tl := by
        simp only [setA, if_pos h0]
      rw [e1, lookupA_cons, lookupA_cons]
      by_cases h1 : k = k'
      · rw [if_pos h1, if_pos h1]
      · have h2 : ¬ k₀ = k' := by rw [h0]; exact h1
        rw [if_neg h1, if_neg h1, if_neg h2]
    · have e1 : setA k v ((k₀, v₀) :: tl) = (k₀, v₀) :: setA k v tl := by
        simp only [setA, if_neg h0]
      rw [e1, lookupA_cons, lookupA_cons]
      by_cases h2 : k₀ = k'
      · have h1 : ¬ k = k' := by rw [← h2]; exact fun h => h0 h.symm
        rw [if_pos h2, if_neg h1, if_pos h2]
      · rw [if_neg h2, if_neg h2, ih]

theorem lookupA_updateA (k k' : String) (f : α → α) (l : List (String × α)) :
    lookupA k' (updateA k f l) =
      if k = k' then (lookupA k' l).map f else lookupA k' l := by
  induction l with
  | nil => simp [updateA]
  | cons hd tl ih =>
    obtain ⟨k₀, v₀⟩ := hd
    by_cases h0 : k₀ = k
    · have e1 : updateA k f ((k₀, v₀) :: tl) = (k₀, f v₀) :: updateA k f tl := by
        simp only [updateA, if_pos h0]
      by_cases h2 : k₀ = k'
      · have h1 : k = k' := by rw [← h2, h0]
        simp [e1, lookupA_cons, if_pos h2, if_pos h1]
      · have h1 : ¬ k = k' := by rw [← h0]; exact h2
        simp [e1, lookupA_cons, if_neg h2, if_neg h1, ih]
    · have e1 : updateA k f ((k₀, v₀) :: tl) = (k₀, v₀) :: updateA k f tl := by
        simp only [updateA, if_neg h0]
      by_cases h2 : k₀ = k'
      · have h1 : ¬ k = k' := by rw [← h2]; exact fun h => h0 h.symm
        simp [e1, lookupA_cons, if_pos h2, if_neg h1]
      · simp [e1, lookupA_cons, if_neg h2, ih]

theorem mem_keysOf_iff_isSome (k : String) (l : List (String × α)) :
    k ∈ keysOf l ↔ (lookupA k l).isSome = true := by
  induction l with
  | nil => simp [keysOf]
  | cons hd tl ih =>
    obtain ⟨k₀, v₀⟩ := hd
    show k ∈ k₀ :: keysOf tl ↔ _
    rw [List.mem_cons, lookupA_cons]
    by_cases h0 : k₀ = k
    · rw [if_pos h0]
      simp [h0]
    · rw [if_neg h0, ih]
      constructor
      · rintro (h1 | h1)
        · exact absurd h1.symm h0
        · exact h1
      · exact Or.inr

theorem lookupA_eq_none_iff (k : String) (l : List (String × α)) :
    lookupA k l = none ↔ k ∉ keysOf l := by
  rw [mem_keysOf_iff_isSome]
  cases h : lookupA k l <;> simp

theorem mem_of_lookupA (k : String) (v : α) (l : List (String × α))
    (h : lookupA k l = some v) : (k, v) ∈ l := by
  induction l with
  | nil => simp [lookupA] at h
  | cons hd tl ih =>
    obtain ⟨k₀, v₀⟩ := hd
    by_cases h0 : k₀ = k
    · rw [lookupA_cons, if_pos h0] at h
      rw [Option.some_inj] at h
      rw [h0, h]
      exact List.mem_cons_self _ _
    · rw [lookupA_cons, if_neg h0] at h
      exact List.mem_cons_of_mem _ (ih h)

theorem lookupA_of_mem (k : String) (v : α) (l : List (String × α))
    (hnd : (keysOf l).Nodup) (h : (k, v) ∈ l) : lookupA k l = some v := by
  induction l with
  | nil => simp at h
  | cons hd tl ih =>
    obtain ⟨k₀, v₀⟩ := hd
    have hnd2 : (k₀ :: keysOf tl).Nodup := hnd
    obtain ⟨hnotin, hndtl⟩ := List.nodup_cons.mp hnd2
    rcases List.mem_cons.1 h with h1 | h1
    · have hk : k₀ = k := (congrArg Prod.fst h1).symm
      have hv : v₀ = v := (congrArg Prod.snd h1).symm
      rw [lookupA_cons, if_pos hk, hv]
    · have hk0 : k₀ ≠ k := by
        intro hkk
        apply hnotin
        rw [hkk]
        exact List.mem_map.2 ⟨(k, v), h1, rfl⟩
      rw [lookupA_cons, if_neg hk0]
      exact ih hndtl h1

theorem eraseA_sublist (k : String) (l : List (String × α)) : (eraseA k l).Sublist l := by
  induction l with
  | nil => simp [eraseA]
  | cons hd tl ih =>
    obtain ⟨k₀, v₀⟩ := hd
    by_cases h0 : k₀ = k
    · rw [eraseA, if_pos h0]
      exact ih.cons (k₀, v₀)
    · rw [eraseA, if_neg h0]
      exact ih.cons₂ (k₀, v₀)

theorem keysOf_eraseA_nodup (k : String) (l : List (String × α))
    (hnd : (keysOf l).Nodup) : (keysOf (eraseA k l)).Nodup :=
  List.Nodup.sublist ((eraseA_sublist k l).map Prod.fst) hnd

theorem eraseA_of_lookupA_none (k : String) (l : List (String × α))
    (h : lookupA k l = none) : eraseA k l = l := by
  induction l with
  | nil => rfl
  | cons hd tl ih =>
    obtain ⟨k₀, v₀⟩ := hd
    by_cases h0 : k₀ = k
    · subst h0; simp [lookupA] at h
    · simp [lookupA, h0] at h
      simp [eraseA, h0, ih h]

theorem keysOf_updateA (k : String) (f : α → α) (l : List (String × α)) :
    keysOf (updateA k f l) = keysOf l := by
  induction l with
  | nil => rfl
  | cons hd tl ih =>
    obtain ⟨k₀, v₀⟩ := hd
    by_cases h0 : k₀ = k <;> simp [updateA, h0, keysOf] at ih ⊢ <;> exact ih

theorem keysOf_setA_mem (k : String) (v : α) (l : List (String × α))
    (h : k ∈ keysOf l) : keysOf (setA k v l) = keysOf l := by
  induction l with
  | nil => simp [keysOf] at h
  | cons hd tl ih =>
    obtain ⟨k₀, v₀⟩ := hd
    by_cases h0 : k₀ = k
    · have e1 : setA k v ((k₀, v₀) :: tl) = (k, v) :: tl := by
        simp only [setA, if_pos h0]
      rw [e1]
      show k :: keysOf tl = k₀ :: keysOf tl
      rw [h0]
    · have e1 : setA k v ((k₀, v₀) :: tl) = (k₀, v₀) :: setA k v tl := by
        simp only [setA, if_neg h0]
      rw [e1]
      show k₀ :: keysOf (setA k v tl) = k₀ :: keysOf tl
      have hmem : k ∈ keysOf tl := by
        have h2 : k ∈ k₀ :: keysOf tl := h
        rcases List.mem_cons.1 h2 with h3 | h3
        · exact absurd h3.symm h0
        · exact h3
      rw [ih hmem]

theorem keysOf_setA_not_mem (k : String) (v : α) (l : List (String × α))
    (h : k ∉ keysOf l) : keysOf (setA k v l) = keysOf l ++ [k] := by
  induction l with
  | nil => simp [setA, keysOf]
  | cons hd tl ih =>
    obtain ⟨k₀, v₀⟩ := hd
    have h2 : k ∉ k₀ :: keysOf tl := h
    have h0 : ¬ k₀ = k := by
      intro hh
      exact h2 (by rw [hh]; exact List.mem_cons_self _ _)
    have htl : k ∉ keysOf tl := fun hm => h2 (List.mem_cons_of_mem _ hm)
    have e1 : setA k v ((k₀, v₀) :: tl) = (k₀, v₀) :: setA k v tl := by
      simp only [setA, if_neg h0]
    rw [e1]
    show k₀ :: keysOf (setA k v tl) = keysOf ((k₀, v₀) :: tl) ++ [k]
    rw [ih htl]
    rfl

theorem keysOf_setA_nodup (k : String) (v : α) (l : List (String × α))
    (hnd : (keysOf l).Nodup) : (keysOf (setA k v l)).Nodup := by
  by_cases h : k ∈ keysOf l
  · rw [keysOf_setA_mem k v l h]; exact hnd
  · rw [keysOf_setA_not_mem k v l h, List.nodup_append]
    refine ⟨hnd, List.nodup_singleton k, ?_⟩
    intro a ha hb
    rw [List.mem_singleton] at hb
    rw [hb] at ha
    exact h ha

theorem mem_addS (x y : String) (l : List String) :
    y ∈ addS x l ↔ y ∈ l ∨ y = x := by
  unfold addS
  by_cases h : x ∈ l
  · simp only [if_pos h]
    constructor
    · exact Or.inl
    · rintro (h1 | rfl)
      · exact h1
      · exact h
  · simp [if_neg h]

theorem addS_nodup (x : String) (l : List String) (hnd : l.Nodup) : (addS x l).Nodup := by
  unfold addS
  by_cases h : x ∈ l
  · rw [if_pos h]; exact hnd
  · rw [if_neg h, List.nodup_append]
    refine ⟨hnd, List.nodup_singleton x, ?_⟩
    intro a ha hb
    rw [List.mem_singleton] at hb
    rw [hb] at ha
    exact h ha

theorem addS_ne_nil (x : String) (l : List String) : addS x l ≠ [] := by
  unfold addS
  by_cases h : x ∈ l
  · simp only [if_pos h]
    intro hl
    subst hl
    simp at h
  · simp [h]

theorem self_mem_addS (x : String) (l : List String) : x ∈ addS x l := by
  rw [mem_addS]; exact Or.inr rfl

theorem addS_of_not_mem (x : String) (l : List String) (h : x ∉ l) :
    addS x l = l ++ [x] := by
  unfold addS; simp [h]

end AssocLemmas

/-!
## Data model

`Session` is the per-connection object stored in `connections`
(connection.js lines 50-57): user identity from the authenticated socket,
`connectedAt`, `roomId: null`, `isActive: true`; `audioMuted` is written by
the `audio:toggle` handler (absent = `false` initially, since every read in
the source is `conn.audioMuted || false`), and `lastPing` is written by the
`ping` handler (absent initially, reads are `lastPing || connectedAt`).
-/

structure Session where
  userId : String
  userName : String
  userRole : String
  connectedAt : Nat
  roomId : Option String
  isActive : Bool
  audioMuted : Bool
  lastPing : Option Nat
  deriving Repr, DecidableEq

/-- Entry pushed by `getRoomParticipants` (connection.js lines 396-420). -/
structure Participant where
  userId : String
  userName : String
  userRole : String
  socketId : String
  audioMuted : Bool
  deriving Repr, DecidableEq

/-- `emergencyData` built by the `emergency:alert` handler
(connection.js lines 245-252); `ts` stands for its `timestamp` field. -/
structure Emergency where
  userId : String
  userName : String
  location : String
  message : String
  ts : Nat
  roomId : String
  deriving Repr, DecidableEq

/-- Outbound events, each tagged with the socket id it is delivered to
(`target`).  One constructor per `emit` in connection.js, plus `terminated`
marking a forced transport-level disconnect (`socket.disconnect(true)`).
The `timestamp` payload fields (always `new Date()`) are omitted. -/
inductive Event where
  | errorMsg (target : String) (message : String)
  | roomJoined (target : String) (roomId : String) (participants : List Participant)
  | roomState (target : String) (roomId : String) (participants : List Participant)
      (participantCount : Nat)
  | participantJoined (target : String) (userId userName socketId : String)
  | participantLeft (target : String) (userId userName : String)
  | audioChanged (target : String) (userId userName : String) (isMuted : Bool)
  | kicked (target : String) (byName reason : String)
  | forcedMute (target : String) (byName : String)
  | emergencyReceived (target : String) (data : Emergency)
  | emergencySent (target : String)
  | pong (target : String)
  | terminated (socketId : String)
  deriving Repr, DecidableEq

/-- The process-local server state: the three tracking maps of
connection.js lines 5-8 plus the Redis `emergencies:active` durable list
(the only external store whose contents any claim refers to). -/
structure ServerState where
  connections : List (String × Session)
  rooms : List (String × List String)
  userSockets : List (String × List String)
  emergencies : List Emergency
  deriving Repr, DecidableEq

def initialState : ServerState :=
  { connections := [], rooms := [], userSockets := [], emergencies := [] }

/-!
## Shared map-of-sets mutation patterns

The source uses the same two shapes twice each:
- add: `if (!m.has(k)) m.set(k, new Set()); m.get(k).add(x)`
  (rooms in `room:join`, userSockets on connection);
- remove: `if set: set.delete(x); if (set.size === 0) m.delete(k)`
  (rooms in `leaveRoom`, userSockets in the disconnect handler).
-/

def addToSetMap (k x : String) (m : List (String × List String)) :
    List (String × List String) :=
  match lookupA k m with
  | none => setA k (addS x []) m
  | some set0 => setA k (addS x set0) m

def removeFromSetMap (k x : String) (m : List (String × List String)) :
    List (String × List String) :=
  match lookupA k m with
  | none => m
  | some set0 =>
    let set1 := set0.erase x
    if set1 = [] then eraseA k m else setA k set1 m

section SetMapLemmas

theorem lookupA_addToSetMap_self (k x : String) (m : List (String × List String)) :
    lookupA k (addToSetMap k x m) = some (addS x ((lookupA k m).getD [])) := by
  unfold addToSetMap
  cases h : lookupA k m with
  | none => simp [lookupA_setA]
  | some set0 => simp [lookupA_setA]

theorem lookupA_addToSetMap_ne (k k' x : String) (m : List (String × List String))
    (h : k ≠ k') : lookupA k' (addToSetMap k x m) = lookupA k' m := by
  unfold addToSetMap
  cases h0 : lookupA k m with
  | none => simp [lookupA_setA, h]
  | some set0 => simp [lookupA_setA, h]

theorem lookupA_removeFromSetMap_self (k x : String) (m : List (String × List String)) :
    lookupA k (removeFromSetMap k x m) =
      (lookupA k m).bind
        (fun set0 => if set0.erase x = [] then none else some (set0.erase x)) := by
  unfold removeFromSetMap
  cases h : lookupA k m with
  | none => exact h
  | some set0 =>
    show lookupA k (if set0.erase x = [] then eraseA k m else setA k (set0.erase x) m) =
      if set0.erase x = [] then none else some (set0.erase x)
    by_cases h1 : set0.erase x = []
    · rw [if_pos h1, if_pos h1, lookupA_eraseA, if_pos rfl]
    · rw [if_neg h1, if_neg h1, lookupA_setA, if_pos rfl]

theorem lookupA_removeFromSetMap_ne (k k' x : String) (m : List (String × List String))
    (h : k ≠ k') : lookupA k' (removeFromSetMap k x m) = lookupA k' m := by
  unfold removeFromSetMap
  cases h0 : lookupA k m with
  | none => rfl
  | some set0 =>
    show lookupA k' (if set0.erase x = [] then eraseA k m else setA k (set0.erase x) m) =
      lookupA k' m
    by_cases h1 : set0.erase x = []
    · rw [if_pos h1, lookupA_eraseA, if_neg (fun hh : k' = k => h hh.symm)]
    · rw [if_neg h1, lookupA_setA, if_neg h]

theorem keysOf_addToSetMap_nodup (k x : String) (m : List (String × List String))
    (hnd : (keysOf m).Nodup) : (keysOf (addToSetMap k x m)).Nodup := by
  unfold addToSetMap
  cases h : lookupA k m with
  | none => exact keysOf_setA_nodup _ _ _ hnd
  | some set0 => exact keysOf_setA_nodup _ _ _ hnd

theorem keysOf_removeFromSetMap_nodup (k x : String) (m : List (String × List String))
    (hnd : (keysOf m).Nodup) : (keysOf (removeFromSetMap k x m)).Nodup := by
  unfold removeFromSetMap
  cases h : lookupA k m with
  | none => exact hnd
  | some set0 =>
    show (keysOf (if set0.erase x = [] then eraseA k m else setA k (set0.erase x) m)).Nodup
    by_cases h1 : set0.erase x = []
    · rw [if_pos h1]; exact keysOf_eraseA_nodup k m hnd
    · rw [if_neg h1]; exact keysOf_setA_nodup k (set0.erase x) m hnd

/-- Any member of any set in the result of `removeFromSetMap` was already a
member of the corresponding set before. -/
theorem mem_of_lookupA_removeFromSetMap (k x k' : String)
    (m : List (String × List String)) (mems' : List String) (y : String)
    (h : lookupA k' (removeFromSetMap k x m) = some mems') (hy : y ∈ mems') :
    ∃ mems, lookupA k' m = some mems ∧ y ∈ mems := by
  by_cases hk : k = k'
  · rw [← hk] at h ⊢
    rw [lookupA_removeFromSetMap_self] at h
    cases h0 : lookupA k m with
    | none => rw [h0] at h; simp at h
    | some set0 =>
      rw [h0] at h
      have h2 : (if set0.erase x = [] then none else some (set0.erase x)) = some mems' := h
      by_cases h1 : set0.erase x = []
      · rw [if_pos h1] at h2; simp at h2
      · rw [if_neg h1] at h2
        rw [Option.some_inj] at h2
        refine ⟨set0, rfl, ?_⟩
        rw [← h2] at hy
        exact List.mem_of_mem_erase hy
  · rw [lookupA_removeFromSetMap_ne k k' x m hk] at h
    exact ⟨mems', h, hy⟩

end SetMapLemmas

/-!
## Handlers

Each handler returns the successor state and the ordered list of events it
emitted.  Socket-attached fields (`socket.userId`, `socket.userName`,
`socket.userRole` — set once by the auth middleware) are passed as explicit
arguments; the transition relation below ties them to the registered
session, which is how the real system behaves (the connection handler
stores exactly those values).  Audiences of `io.to(room)` /
`socket.to(room)` broadcasts are computed from the `rooms` map, which the
source keeps in lock-step with socket.io's own room membership
(`socket.join`/`socket.leave`/forced disconnect are always paired with the
map updates on every reachable path).
-/

/-- `getRoomParticipants` (connection.js lines 396-420): walks the room's
socket-id set and keeps the entries that still resolve in `connections`. -/
def getRoomParticipants (roomId : String) (s : ServerState) : List Participant :=
  match lookupA roomId s.rooms with
  | none => []
  | some socketIds =>
    socketIds.filterMap (fun sockId =>
      (lookupA sockId s.connections).map (fun c =>
        { userId := c.userId, userName := c.userName, userRole := c.userRole,
          socketId := sockId, audioMuted := c.audioMuted }))

/-- The `io.on('connection')` body, registration part (lines 50-66):
store the session, add the socket to the user's multi-device set.
The Redis `updateUserStatus` call is external I/O with no modelled state. -/
def handleConnect (sid uid uname urole : String) (now : Nat) (s : ServerState) :
    ServerState × List Event :=
  let sess : Session :=
    { userId := uid, userName := uname, userRole := urole,
      connectedAt := now, roomId := none, isActive := true,
      audioMuted := false, lastPing := none }
  ({ s with connections := setA sid sess s.connections,
            userSockets := addToSetMap uid sid s.userSockets }, [])

/-- `leaveRoom` helper (lines 354-394).  The `participant:left` broadcast
runs after the member has been removed from the room set (and after
`socket.leave`), so its audience is the remaining membership. -/
def leaveRoom (sid : String) (s : ServerState) : ServerState × List Event :=
  match lookupA sid s.connections with
  | none => (s, [])
  | some conn =>
    match conn.roomId with
    | none => (s, [])
    | some roomId =>
      let rooms' := removeFromSetMap roomId sid s.rooms
      let audience := (lookupA roomId rooms').getD []
      ({ s with connections := updateA sid (fun c => { c with roomId := none }) s.connections,
                rooms := rooms' },
       audience.map (fun t => Event.participantLeft t conn.userId conn.userName))

/-- The registry/index mutation step of the `room:join` handler
(lines 89-96): `socket.join`, set the session's `roomId`, add to the
room-tracking set (creating it when absent). -/
def joinApply (sid roomId : String) (s : ServerState) : ServerState :=
  { s with connections := updateA sid (fun c => { c with roomId := some roomId }) s.connections,
           rooms := addToSetMap roomId sid s.rooms }

/-- `room:join` handler (lines 73-129).  `!roomId` is truthy for a missing
or empty room id.  When the session is already in a room, the handler first
runs the full `leaveRoom`.  If the connection record is missing,
`connections.get(socket.id).roomId` throws and the catch block emits
`error {message:'Failed to join room'}`. -/
def handleJoin (sid uid uname : String) (roomIdOpt : Option String) (s : ServerState) :
    ServerState × List Event :=
  match roomIdOpt with
  | none => (s, [Event.errorMsg sid "Room ID required"])
  | some roomId =>
    if roomId = "" then (s, [Event.errorMsg sid "Room ID required"])
    else
      match lookupA sid s.connections with
      | none => (s, [Event.errorMsg sid "Failed to join room"])
      | some conn0 =>
        let leaveStep :=
          match conn0.roomId with
          | some _ => leaveRoom sid s
          | none => (s, [])
        let s2 := joinApply sid roomId leaveStep.1
        let participants := getRoomParticipants roomId s2
        let others := ((lookupA roomId s2.rooms).getD []).erase sid
        (s2,
         leaveStep.2
           ++ [Event.roomJoined sid roomId participants]
           ++ others.map (fun t => Event.participantJoined t uid uname sid)
           ++ [Event.roomState sid roomId participants participants.length])

/-- `audio:toggle` handler (lines 141-164): no-op unless in a room; records
the flag and broadcasts `participant:audio-changed` to the whole room
(`io.to`, sender included).  A missing connection record makes
`connection.roomId` throw; the catch block only logs. -/
def handleAudioToggle (sid uid uname : String) (isMuted : Bool) (s : ServerState) :
    ServerState × List Event :=
  match lookupA sid s.connections with
  | none => (s, [])
  | some conn =>
    match conn.roomId with
    | none => (s, [])
    | some roomId =>
      (({ s with connections := updateA sid (fun c => { c with audioMuted := isMuted }) s.connections }),
       ((lookupA roomId s.rooms).getD []).map
         (fun t => Event.audioChanged t uid uname isMuted))

/-- The `disconnect` handler (lines 301-326): leave the room if in one,
drop the socket from the user's multi-device set (deleting the user entry
when it empties, with a Redis offline write we do not model), then delete
the connection record. -/
def handleDisconnect (sid uid : String) (s : ServerState) : ServerState × List Event :=
  let s1 := (leaveRoom sid s).1
  ({ s1 with userSockets := removeFromSetMap uid sid s1.userSockets,
             connections := eraseA sid s1.connections },
   (leaveRoom sid s).2)

/-- `socket.disconnect(true)`: the transport is torn down (marked by a
`terminated` event) and the server-side `disconnect` handler fires. -/
def forceDisconnect (sid uid : String) (s : ServerState) : ServerState × List Event :=
  ((handleDisconnect sid uid s).1,
   Event.terminated sid :: (handleDisconnect sid uid s).2)

/-- `admin:kick` handler (lines 171-205).  Non-admin callers get
`error {message:'Unauthorized'}`; a missing target socket gets
`error {message:'Participant not found'}`.  Otherwise: `kicked` to the
target first, then `leaveRoom(target)`, then forced disconnect.
`reason || 'No reason provided'` treats the empty string as absent. -/
def handleKick (callerSid callerName callerRole : String) (targetSid : String)
    (reason : Option String) (s : ServerState) : ServerState × List Event :=
  if callerRole ≠ "admin" then (s, [Event.errorMsg callerSid "Unauthorized"])
  else
    match lookupA targetSid s.connections with
    | none => (s, [Event.errorMsg callerSid "Participant not found"])
    | some targetUser =>
      let reasonText :=
        match reason with
        | none => "No reason provided"
        | some r => if r = "" then "No reason provided" else r
      let afterLeave := leaveRoom targetSid s
      let afterDisc := forceDisconnect targetSid targetUser.userId afterLeave.1
      (afterDisc.1,
       Event.kicked targetSid callerName reasonText :: (afterLeave.2 ++ afterDisc.2))

/-- `admin:mute` handler (lines 208-231): Unauthorized for non-admins,
silent return for a missing target, otherwise `forced-mute` to the target
only.  No state is mutated. -/
def handleMute (callerSid callerName callerRole : String) (targetSid : String)
    (s : ServerState) : ServerState × List Event :=
  if callerRole ≠ "admin" then (s, [Event.errorMsg callerSid "Unauthorized"])
  else
    match lookupA targetSid s.connections with
    | none => (s, [])
    | some _ => (s, [Event.forcedMute targetSid callerName])

/-- `emergency:alert` handler (lines 237-281): silent return when not in a
room (including when the connection record is missing, where
`connection.roomId` throws into the catch block); otherwise `lPush` the
alert onto `emergencies:active` (newest first), notify every room member
whose session role is `'admin'`, then acknowledge the sender. -/
def handleEmergency (sid uid uname : String) (location message : String) (now : Nat)
    (s : ServerState) : ServerState × List Event :=
  match lookupA sid s.connections with
  | none => (s, [])
  | some conn =>
    match conn.roomId with
    | none => (s, [])
    | some roomId =>
      let data : Emergency :=
        { userId := uid, userName := uname, location := location,
          message := message, ts := now, roomId := roomId }
      let roomSockets := (lookupA roomId s.rooms).getD []
      let admins := roomSockets.filter (fun t =>
        match lookupA t s.connections with
        | some c => c.userRole == "admin"
        | none => false)
      ({ s with emergencies := data :: s.emergencies },
       admins.map (fun t => Event.emergencyReceived t data) ++ [Event.emergencySent sid])

/-- `ping` handler (lines 287-295): refresh `lastPing` and acknowledge. -/
def handlePing (sid : String) (now : Nat) (s : ServerState) : ServerState × List Event :=
  match lookupA sid s.connections with
  | none => (s, [])
  | some _ =>
    (({ s with connections := updateA sid (fun c => { c with lastPing := some now }) s.connections }),
     [Event.pong sid])

/-- `STALE_THRESHOLD` (line 455): five minutes in milliseconds. -/
def staleThresholdMs : Nat := 5 * 60 * 1000

/-- A session counts as stale when `now - (lastPing || connectedAt)`
strictly exceeds the threshold (line 462). -/
def isStale (now : Nat) (c : Session) : Bool :=
  decide (now - (c.lastPing.getD c.connectedAt) > staleThresholdMs)

/-- Iteration core of `cleanupStaleConnections` (lines 453-475): walk the
registry's keys (a JS `Map` iterator sees deletions, hence the re-lookup),
force-disconnect each stale socket (which runs the `disconnect` handler),
then delete the registry entry. -/
def cleanupGo (now : Nat) : List String → ServerState → ServerState × List Event
  | [], s => (s, [])
  | sid :: rest, s =>
    match lookupA sid s.connections with
    | none => cleanupGo now rest s
    | some conn =>
      if isStale now conn then
        let s1 := (forceDisconnect sid conn.userId s).1
        let s2 := { s1 with connections := eraseA sid s1.connections }
        ((cleanupGo now rest s2).1,
         (forceDisconnect sid conn.userId s).2 ++ (cleanupGo now rest s2).2)
      else cleanupGo now rest s

/-- One run of the periodic stale-connection reaper. -/
def cleanupStaleConnections (now : Nat) (s : ServerState) : ServerState × List Event :=
  cleanupGo now (keysOf s.connections) s

/-!
## Transition relation

One constructor per way the server state can change.  `connect` carries the
transport-level guarantee that a live socket id is never handed out twice
concurrently (socket.io generates fresh ids); `disconnect` fires for a live
— hence registered — socket and carries that socket's own `userId`.
-/

inductive Step : ServerState → ServerState → Prop where
  | connect (s : ServerState) (sid uid uname urole : String) (now : Nat)
      (hfresh : lookupA sid s.connections = none) :
      Step s (handleConnect sid uid uname urole now s).1
  | roomJoin (s : ServerState) (sid uid uname : String) (roomIdOpt : Option String) :
      Step s (handleJoin sid uid uname roomIdOpt s).1
  | roomLeave (s : ServerState) (sid : String) :
      Step s (leaveRoom sid s).1
  | audioToggle (s : ServerState) (sid uid uname : String) (m : Bool) :
      Step s (handleAudioToggle sid uid uname m s).1
  | adminKick (s : ServerState) (csid cname crole tsid : String) (reason : Option String) :
      Step s (handleKick csid cname crole tsid reason s).1
  | adminMute (s : ServerState) (csid cname crole tsid : String) :
      Step s (handleMute csid cname crole tsid s).1
  | emergencyAlert (s : ServerState) (sid uid uname loc msg : String) (now : Nat) :
      Step s (handleEmergency sid uid uname loc msg now s).1
  | heartbeat (s : ServerState) (sid : String) (now : Nat) :
      Step s (handlePing sid now s).1
  | disconnect (s : ServerState) (sid : String) (sess : Session)
      (hreg : lookupA sid s.connections = some sess) :
      Step s (handleDisconnect sid sess.userId s).1
  | reap (s : ServerState) (now : Nat) :
      Step s (cleanupStaleConnections now s).1

/-- States reachable from the empty boot state. -/
def Reachable (s : ServerState) : Prop :=
  Relation.ReflTransGen Step initialState s

/-!
## The inductive invariant

Everything every reachable server state satisfies: the three maps have
duplicate-free keys, room sets are duplicate-free and non-empty, the
registry and the room index agree in both directions, and the multi-device
tracker and the registry agree in both directions.
-/

structure Inv (s : ServerState) : Prop where
  connNodup : (keysOf s.connections).Nodup
  roomNodup : (keysOf s.rooms).Nodup
  memsNodup : ∀ r mems, lookupA r s.rooms = some mems → mems.Nodup
  memsNonempty : ∀ r mems, lookupA r s.rooms = some mems → mems ≠ []
  memAssigned : ∀ r mems, lookupA r s.rooms = some mems → ∀ sid ∈ mems,
      ∃ c, lookupA sid s.connections = some c ∧ c.roomId = some r
  assignedMem : ∀ sid c, lookupA sid s.connections = some c → ∀ r, c.roomId = some r →
      ∃ mems, lookupA r s.rooms = some mems ∧ sid ∈ mems
  usNodup : (keysOf s.userSockets).Nodup
  usSetsNodup : ∀ u set0, lookupA u s.userSockets = some set0 → set0.Nodup
  usNonempty : ∀ u set0, lookupA u s.userSockets = some set0 → set0 ≠ []
  usOwner : ∀ u set0, lookupA u s.userSockets = some set0 → ∀ x ∈ set0,
      ∃ c, lookupA x s.connections = some c ∧ c.userId = u
  connInUs : ∀ sid c, lookupA sid s.connections = some c →
      ∃ set0, lookupA c.userId s.userSockets = some set0 ∧ sid ∈ set0

theorem Inv.in_room_eq (hInv : Inv s) {sid : String} {c : Session} {r : String}
    {mems : List String} (hc : lookupA sid s.connections = some c)
    (hr : lookupA r s.rooms = some mems) (hmem : sid ∈ mems) : c.roomId = some r := by
  obtain ⟨c', hc', hr'⟩ := hInv.memAssigned r mems hr sid hmem
  rw [hc] at hc'
  rw [Option.some_inj] at hc'
  rw [hc']
  exact hr'

theorem Inv.roomNone_not_mem (hInv : Inv s) {sid : String} {c : Session} {r : String}
    {mems : List String} (hc : lookupA sid s.connections = some c)
    (hnone : c.roomId = none) (hr : lookupA r s.rooms = some mems) : sid ∉ mems := by
  intro hmem
  have := hInv.in_room_eq hc hr hmem
  rw [hnone] at this
  exact Option.noConfusion this

/-!
## Characterization lemmas for the handlers
-/

theorem leaveRoom_of_none (sid : String) (s : ServerState)
    (h : lookupA sid s.connections = none) : leaveRoom sid s = (s, []) := by
  unfold leaveRoom
  rw [h]

theorem leaveRoom_of_noroom (sid : String) (s : ServerState) (sess : Session)
    (h : lookupA sid s.connections = some sess) (h2 : sess.roomId = none) :
    leaveRoom sid s = (s, []) := by
  unfold leaveRoom
  simp only [h, h2]

theorem leaveRoom_of_room (sid : String) (s : ServerState) (sess : Session) (R : String)
    (h : lookupA sid s.connections = some sess) (h2 : sess.roomId = some R) :
    leaveRoom sid s =
      ({ s with connections := updateA sid (fun c => { c with roomId := none }) s.connections,
                rooms := removeFromSetMap R sid s.rooms },
       ((lookupA R (removeFromSetMap R sid s.rooms)).getD []).map
         (fun t => Event.participantLeft t sess.userId sess.userName)) := by
  unfold leaveRoom
  simp only [h, h2]

/-- After removing `sid` from room `R`, the room's effective member list
(empty when the room entry was dropped) is exactly `mems.erase sid`. -/
theorem audience_after_remove (R sid : String) (s : ServerState) (mems : List String)
    (hm : lookupA R s.rooms = some mems) :
    (lookupA R (removeFromSetMap R sid s.rooms)).getD [] = mems.erase sid := by
  rw [lookupA_removeFromSetMap_self, hm]
  show (if mems.erase sid = [] then none else some (mems.erase sid)).getD [] = mems.erase sid
  by_cases h1 : mems.erase sid = []
  · rw [if_pos h1, h1]; rfl
  · rw [if_neg h1]; rfl

theorem session_eta_roomNone (sess : Session) (h : sess.roomId = none) :
    { sess with roomId := none } = sess := by
  obtain ⟨uid, uname, urole, cAt, rid, act, amut, lp⟩ := sess
  simp only at h
  rw [h]

theorem leaveRoom_lookup_self (sid : String) (s : ServerState) (sess : Session)
    (h : lookupA sid s.connections = some sess) :
    lookupA sid (leaveRoom sid s).1.connections = some { sess with roomId := none } := by
  cases hro : sess.roomId with
  | none =>
    rw [leaveRoom_of_noroom sid s sess h hro, session_eta_roomNone sess hro]
    exact h
  | some R =>
    rw [leaveRoom_of_room sid s sess R h hro]
    show lookupA sid (updateA sid (fun c => { c with roomId := none }) s.connections) = _
    rw [lookupA_updateA, if_pos rfl, h]
    rfl

theorem handleDisconnect_lookup_self (sid uid : String) (s : ServerState) :
    lookupA sid (handleDisconnect sid uid s).1.connections = none := by
  unfold handleDisconnect
  show lookupA sid (eraseA sid (leaveRoom sid s).1.connections) = none
  rw [lookupA_eraseA, if_pos rfl]

theorem serverState_eta_conn (t : ServerState) (e : List (String × Session))
    (h : e = t.connections) : { t with connections := e } = t := by
  rw [h]

/-!
## Invariant preservation, operation by operation
-/

theorem inv_connect (s : ServerState) (sid uid uname urole : String) (now : Nat)
    (hInv : Inv s) (hfresh : lookupA sid s.connections = none) :
    Inv (handleConnect sid uid uname urole now s).1 := by
  unfold handleConnect
  set sess : Session :=
    { userId := uid, userName := uname, userRole := urole,
      connectedAt := now, roomId := none, isActive := true,
      audioMuted := false, lastPing := none } with hsess
  constructor
  · exact keysOf_setA_nodup sid sess s.connections hInv.connNodup
  · exact hInv.roomNodup
  · exact hInv.memsNodup
  · exact hInv.memsNonempty
  · intro r mems hr x hx
    obtain ⟨c, hc, hcr⟩ := hInv.memAssigned r mems hr x hx
    have hxne : sid ≠ x := by
      intro hh
      rw [hh] at hfresh
      rw [hfresh] at hc
      exact Option.noConfusion hc
    refine ⟨c, ?_, hcr⟩
    show lookupA x (setA sid sess s.connections) = some c
    rw [lookupA_setA, if_neg hxne]
    exact hc
  · intro x c hx r hr
    by_cases hxs : sid = x
    · rw [← hxs] at hx
      rw [show lookupA sid (setA sid sess s.connections) = some sess by
            rw [lookupA_setA, if_pos rfl]] at hx
      rw [Option.some_inj] at hx
      rw [← hx] at hr
      exact Option.noConfusion hr
    · rw [show lookupA x (setA sid sess s.connections) = lookupA x s.connections by
            rw [lookupA_setA, if_neg hxs]] at hx
      exact hInv.assignedMem x c hx r hr
  · exact keysOf_addToSetMap_nodup uid sid s.userSockets hInv.usNodup
  · intro u set0 hu
    by_cases hus : uid = u
    · rw [← hus] at hu
      rw [lookupA_addToSetMap_self] at hu
      rw [Option.some_inj] at hu
      rw [← hu]
      cases hbase : lookupA uid s.userSockets with
      | none => simp [addS]
      | some base =>
        exact addS_nodup sid base (hInv.usSetsNodup uid base hbase)
    · rw [lookupA_addToSetMap_ne uid u sid s.userSockets hus] at hu
      exact hInv.usSetsNodup u set0 hu
  · intro u set0 hu
    by_cases hus : uid = u
    · rw [← hus] at hu
      rw [lookupA_addToSetMap_self] at hu
      rw [Option.some_inj] at hu
      rw [← hu]
      exact addS_ne_nil sid _
    · rw [lookupA_addToSetMap_ne uid u sid s.userSockets hus] at hu
      exact hInv.usNonempty u set0 hu
  · intro u set0 hu x hx
    by_cases hus : uid = u
    · rw [← hus] at hu ⊢
      rw [lookupA_addToSetMap_self] at hu
      rw [Option.some_inj] at hu
      rw [← hu] at hx
      rcases (mem_addS sid x _).mp hx with hx1 | hx1
      · cases hbase : lookupA uid s.userSockets with
        | none => rw [hbase] at hx1; simp at hx1
        | some base =>
          rw [hbase, Option.getD_some] at hx1
          obtain ⟨c, hc, hcu⟩ := hInv.usOwner uid base hbase x hx1
          have hxne : sid ≠ x := by
            intro hh
            rw [hh] at hfresh
            rw [hfresh] at hc
            exact Option.noConfusion hc
          refine ⟨c, ?_, hcu⟩
          show lookupA x (setA sid sess s.connections) = some c
          rw [lookupA_setA, if_neg hxne]
          exact hc
      · refine ⟨sess, ?_, rfl⟩
        rw [hx1]
        show lookupA sid (setA sid sess s.connections) = some sess
        rw [lookupA_setA, if_pos rfl]
    · rw [lookupA_addToSetMap_ne uid u sid s.userSockets hus] at hu
      obtain ⟨c, hc, hcu⟩ := hInv.usOwner u set0 hu x hx
      have hxne : sid ≠ x := by
        intro hh
        rw [hh] at hfresh
        rw [hfresh] at hc
        exact Option.noConfusion hc
      refine ⟨c, ?_, hcu⟩
      show lookupA x (setA sid sess s.connections) = some c
      rw [lookupA_setA, if_neg hxne]
      exact hc
  · intro x c hx
    by_cases hxs : sid = x
    · rw [← hxs] at hx ⊢
      rw [show lookupA sid (setA sid sess s.connections) = some sess by
            rw [lookupA_setA, if_pos rfl]] at hx
      rw [Option.some_inj] at hx
      rw [← hx]
      show ∃ set0, lookupA uid (addToSetMap uid sid s.userSockets) = some set0 ∧ sid ∈ set0
      rw [lookupA_addToSetMap_self]
      exact ⟨_, rfl, self_mem_addS sid _⟩
    · rw [show lookupA x (setA sid sess s.connections) = lookupA x s.connections by
            rw [lookupA_setA, if_neg hxs]] at hx
      obtain ⟨set0, hset, hxin⟩ := hInv.connInUs x c hx
      by_cases hus : uid = c.userId
      · rw [← hus] at hset ⊢
        refine ⟨addS sid ((lookupA uid s.userSockets).getD []), ?_, ?_⟩
        · rw [lookupA_addToSetMap_self]
        · rw [hset]
          exact (mem_addS sid x set0).mpr (Or.inl hxin)
      · rw [show lookupA c.userId (addToSetMap uid sid s.userSockets) =
              lookupA c.userId s.userSockets from
              lookupA_addToSetMap_ne uid c.userId sid s.userSockets hus]
        exact ⟨set0, hset, hxin⟩

theorem inv_leaveRoom (sid : String) (s : ServerState) (hInv : Inv s) :
    Inv (leaveRoom sid s).1 := by
  cases hc : lookupA sid s.connections with
  | none => rw [leaveRoom_of_none sid s hc]; exact hInv
  | some sess =>
    cases hro : sess.roomId with
    | none => rw [leaveRoom_of_noroom sid s sess hc hro]; exact hInv
    | some R =>
      obtain ⟨mems, hmro, hsidmem⟩ := hInv.assignedMem sid sess hc R hro
      rw [leaveRoom_of_room sid s sess R hc hro]
      have hlkR : lookupA R (removeFromSetMap R sid s.rooms) =
          if mems.erase sid = [] then none else some (mems.erase sid) := by
        rw [lookupA_removeFromSetMap_self, hmro]
        rfl
      constructor
      · show (keysOf (updateA sid _ s.connections)).Nodup
        rw [keysOf_updateA]
        exact hInv.connNodup
      · exact keysOf_removeFromSetMap_nodup R sid s.rooms hInv.roomNodup
      · intro r mems' hr
        by_cases hrR : R = r
        · rw [← hrR] at hr
          rw [hlkR] at hr
          by_cases hnil : mems.erase sid = []
          · rw [if_pos hnil] at hr; exact Option.noConfusion hr
          · rw [if_neg hnil] at hr
            rw [Option.some_inj] at hr
            rw [← hr]
            exact (hInv.memsNodup R mems hmro).erase sid
        · rw [show lookupA r (removeFromSetMap R sid s.rooms) = lookupA r s.rooms from
                lookupA_removeFromSetMap_ne R r sid s.rooms hrR] at hr
          exact hInv.memsNodup r mems' hr
      · intro r mems' hr
        by_cases hrR : R = r
        · rw [← hrR] at hr
          rw [hlkR] at hr
          by_cases hnil : mems.erase sid = []
          · rw [if_pos hnil] at hr; exact Option.noConfusion hr
          · rw [if_neg hnil] at hr
            rw [Option.some_inj] at hr
            rw [← hr]
            exact hnil
        · rw [show lookupA r (removeFromSetMap R sid s.rooms) = lookupA r s.rooms from
                lookupA_removeFromSetMap_ne R r sid s.rooms hrR] at hr
          exact hInv.memsNonempty r mems' hr
      · intro r mems' hr x hx
        by_cases hrR : R = r
        · rw [← hrR] at hr ⊢
          rw [hlkR] at hr
          by_cases hnil : mems.erase sid = []
          · rw [if_pos hnil] at hr; exact Option.noConfusion hr
          · rw [if_neg hnil] at hr
            rw [Option.some_inj] at hr
            rw [← hr] at hx
            obtain ⟨hxne, hxmem⟩ :=
              ((hInv.memsNodup R mems hmro).mem_erase_iff).mp hx
            obtain ⟨c, hcx, hcr⟩ := hInv.memAssigned R mems hmro x hxmem
            refine ⟨c, ?_, hcr⟩
            show lookupA x (updateA sid _ s.connections) = some c
            rw [lookupA_updateA, if_neg (fun hh : sid = x => hxne hh.symm)]
            exact hcx
        · rw [show lookupA r (removeFromSetMap R sid s.rooms) = lookupA r s.rooms from
                lookupA_removeFromSetMap_ne R r sid s.rooms hrR] at hr
          obtain ⟨c, hcx, hcr⟩ := hInv.memAssigned r mems' hr x hx
          have hxne : sid ≠ x := by
            intro hh
            rw [← hh] at hcx
            rw [hc] at hcx
            rw [Option.some_inj] at hcx
            rw [← hcx] at hcr
            rw [hro] at hcr
            rw [Option.some_inj] at hcr
            exact hrR hcr
          refine ⟨c, ?_, hcr⟩
          show lookupA x (updateA sid _ s.connections) = some c
          rw [lookupA_updateA, if_neg hxne]
          exact hcx
      · intro x c' hx' r hr'
        rw [show lookupA x (updateA sid (fun c => { c with roomId := none }) s.connections) =
              if sid = x then (lookupA x s.connections).map (fun c => { c with roomId := none })
              else lookupA x s.connections from lookupA_updateA sid x _ s.connections] at hx'
        by_cases hsx : sid = x
        · rw [if_pos hsx] at hx'
          rw [← hsx, hc] at hx'
          have hx2 : some { sess with roomId := none } = some c' := hx'
          rw [Option.some_inj] at hx2
          rw [← hx2] at hr'
          exact Option.noConfusion hr'
        · rw [if_neg hsx] at hx'
          obtain ⟨mems₀, hro0, hxm0⟩ := hInv.assignedMem x c' hx' r hr'
          by_cases hrR : R = r
          · rw [← hrR] at hro0 ⊢
            rw [hmro] at hro0
            rw [Option.some_inj] at hro0
            rw [← hro0] at hxm0
            have hxe : x ∈ mems.erase sid :=
              ((hInv.memsNodup R mems hmro).mem_erase_iff).mpr
                ⟨fun hh => hsx hh.symm, hxm0⟩
            have hnil : mems.erase sid ≠ [] := List.ne_nil_of_mem hxe
            refine ⟨mems.erase sid, ?_, hxe⟩
            show lookupA R (removeFromSetMap R sid s.rooms) = some (mems.erase sid)
            rw [hlkR, if_neg hnil]
          · rw [show lookupA r (removeFromSetMap R sid s.rooms) = lookupA r s.rooms from
                  lookupA_removeFromSetMap_ne R r sid s.rooms hrR]
            exact ⟨mems₀, hro0, hxm0⟩
      · exact hInv.usNodup
      · exact hInv.usSetsNodup
      · exact hInv.usNonempty
      · intro u set0 hu x hx
        obtain ⟨c, hcx, hcu⟩ := hInv.usOwner u set0 hu x hx
        by_cases hsx : sid = x
        · refine ⟨{ sess with roomId := none }, ?_, ?_⟩
          · show lookupA x (updateA sid _ s.connections) = _
            rw [lookupA_updateA, if_pos hsx, ← hsx, hc]
            rfl
          · rw [← hsx] at hcx
            rw [hc] at hcx
            rw [Option.some_inj] at hcx
            rw [← hcx] at hcu
            exact hcu
        · refine ⟨c, ?_, hcu⟩
          show lookupA x (updateA sid _ s.connections) = some c
          rw [lookupA_updateA, if_neg hsx]
          exact hcx
      · intro x c' hx'
        rw [show lookupA x (updateA sid (fun c => { c with roomId := none }) s.connections) =
              if sid = x then (lookupA x s.connections).map (fun c => { c with roomId := none })
              else lookupA x s.connections from lookupA_updateA sid x _ s.connections] at hx'
        by_cases hsx : sid = x
        · rw [if_pos hsx] at hx'
          rw [← hsx, hc] at hx'
          have hx2 : some { sess with roomId := none } = some c' := hx'
          rw [Option.some_inj] at hx2
          obtain ⟨set0, hset, hsin⟩ := hInv.connInUs sid sess hc
          refine ⟨set0, ?_, ?_⟩
          · rw [← hx2]
            exact hset
          · rw [← hsx]
            exact hsin
        · rw [if_neg hsx] at hx'
          exact hInv.connInUs x c' hx'

/-- Updating one session with a `userId`-preserving function keeps the
tracker-to-registry direction of the invariant. -/
theorem usOwner_updateA (sid : String) (s : ServerState) (hInv : Inv s)
    (f : Session → Session) (hf : ∀ c, (f c).userId = c.userId) :
    ∀ u set0, lookupA u s.userSockets = some set0 → ∀ x ∈ set0,
      ∃ c, lookupA x (updateA sid f s.connections) = some c ∧ c.userId = u := by
  intro u set0 hu x hx
  obtain ⟨c, hcx, hcu⟩ := hInv.usOwner u set0 hu x hx
  rw [show lookupA x (updateA sid f s.connections) =
        if sid = x then (lookupA x s.connections).map f else lookupA x s.connections from
        lookupA_updateA sid x f s.connections]
  by_cases hsx : sid = x
  · rw [if_pos hsx, hcx]
    exact ⟨f c, rfl, by rw [hf c]; exact hcu⟩
  · rw [if_neg hsx]
    exact ⟨c, hcx, hcu⟩

/-- Updating one session with a `userId`-preserving function keeps the
registry-to-tracker direction of the invariant. -/
theorem connInUs_updateA (sid : String) (s : ServerState) (hInv : Inv s)
    (f : Session → Session) (hf : ∀ c, (f c).userId = c.userId) :
    ∀ x c', lookupA x (updateA sid f s.connections) = some c' →
      ∃ set0, lookupA c'.userId s.userSockets = some set0 ∧ x ∈ set0 := by
  intro x c' hx'
  rw [show lookupA x (updateA sid f s.connections) =
        if sid = x then (lookupA x s.connections).map f else lookupA x s.connections from
        lookupA_updateA sid x f s.connections] at hx'
  by_cases hsx : sid = x
  · rw [if_pos hsx] at hx'
    cases hcx : lookupA x s.connections with
    | none => rw [hcx] at hx'; exact Option.noConfusion hx'
    | some c =>
      rw [hcx] at hx'
      have hx2 : some (f c) = some c' := hx'
      rw [Option.some_inj] at hx2
      obtain ⟨set0, hset, hin⟩ := hInv.connInUs x c hcx
      refine ⟨set0, ?_, hin⟩
      rw [← hx2, hf c]
      exact hset
  · rw [if_neg hsx] at hx'
    exact hInv.connInUs x c' hx'

theorem inv_joinApply (sid R : String) (s : ServerState) (hInv : Inv s)
    (c0 : Session) (hc : lookupA sid s.connections = some c0)
    (hnone : c0.roomId = none) : Inv (joinApply sid R s) := by
  have hnotin : ∀ r mems, lookupA r s.rooms = some mems → sid ∉ mems :=
    fun r mems hr => hInv.roomNone_not_mem hc hnone hr
  have hlkR : lookupA R (addToSetMap R sid s.rooms) =
      some (addS sid ((lookupA R s.rooms).getD [])) :=
    lookupA_addToSetMap_self R sid s.rooms
  unfold joinApply
  constructor
  · show (keysOf (updateA sid _ s.connections)).Nodup
    rw [keysOf_updateA]
    exact hInv.connNodup
  · exact keysOf_addToSetMap_nodup R sid s.rooms hInv.roomNodup
  · intro r mems' hr
    by_cases hrR : R = r
    · rw [← hrR, hlkR] at hr
      rw [Option.some_inj] at hr
      rw [← hr]
      cases hb : lookupA R s.rooms with
      | none => simp [addS]
      | some mems =>
        exact addS_nodup sid mems (hInv.memsNodup R mems hb)
    · rw [show lookupA r (addToSetMap R sid s.rooms) = lookupA r s.rooms from
            lookupA_addToSetMap_ne R r sid s.rooms hrR] at hr
      exact hInv.memsNodup r mems' hr
  · intro r mems' hr
    by_cases hrR : R = r
    · rw [← hrR, hlkR] at hr
      rw [Option.some_inj] at hr
      rw [← hr]
      exact addS_ne_nil sid _
    · rw [show lookupA r (addToSetMap R sid s.rooms) = lookupA r s.rooms from
            lookupA_addToSetMap_ne R r sid s.rooms hrR] at hr
      exact hInv.memsNonempty r mems' hr
  · intro r mems' hr x hx
    by_cases hrR : R = r
    · rw [← hrR] at hr ⊢
      rw [hlkR] at hr
      rw [Option.some_inj] at hr
      rw [← hr] at hx
      rcases (mem_addS sid x _).mp hx with hx1 | hx1
      · cases hb : lookupA R s.rooms with
        | none => rw [hb] at hx1; simp at hx1
        | some mems =>
          rw [hb, Option.getD_some] at hx1
          obtain ⟨c, hcx, hcr⟩ := hInv.memAssigned R mems hb x hx1
          have hxne : sid ≠ x := fun hh => hnotin R mems hb (hh ▸ hx1)
          refine ⟨c, ?_, hcr⟩
          show lookupA x (updateA sid _ s.connections) = some c
          rw [lookupA_updateA, if_neg hxne]
          exact hcx
      · refine ⟨{ c0 with roomId := some R }, ?_, rfl⟩
        rw [hx1]
        show lookupA sid (updateA sid _ s.connections) = _
        rw [lookupA_updateA, if_pos rfl, hc]
        rfl
    · rw [show lookupA r (addToSetMap R sid s.rooms) = lookupA r s.rooms from
            lookupA_addToSetMap_ne R r sid s.rooms hrR] at hr
      obtain ⟨c, hcx, hcr⟩ := hInv.memAssigned r mems' hr x hx
      have hxne : sid ≠ x := fun hh => hnotin r mems' hr (hh ▸ hx)
      refine ⟨c, ?_, hcr⟩
      show lookupA x (updateA sid _ s.connections) = some c
      rw [lookupA_updateA, if_neg hxne]
      exact hcx
  · intro x c' hx' r hr'
    rw [show lookupA x (updateA sid (fun c => { c with roomId := some R }) s.connections) =
          if sid = x then (lookupA x s.connections).map (fun c => { c with roomId := some R })
          else lookupA x s.connections from lookupA_updateA sid x _ s.connections] at hx'
    by_cases hsx : sid = x
    · rw [if_pos hsx, ← hsx, hc] at hx'
      have hx2 : some { c0 with roomId := some R } = some c' := hx'
      rw [Option.some_inj] at hx2
      rw [← hx2] at hr'
      have hrR : some R = some r := hr'
      rw [Option.some_inj] at hrR
      rw [← hrR, ← hsx]
      refine ⟨addS sid ((lookupA R s.rooms).getD []), ?_, self_mem_addS sid _⟩
      show lookupA R (addToSetMap R sid s.rooms) = _
      exact hlkR
    · rw [if_neg hsx] at hx'
      obtain ⟨mems₀, hro0, hxm0⟩ := hInv.assignedMem x c' hx' r hr'
      by_cases hrR : R = r
      · rw [← hrR] at hro0 ⊢
        refine ⟨addS sid ((lookupA R s.rooms).getD []), ?_, ?_⟩
        · show lookupA R (addToSetMap R sid s.rooms) = _
          exact hlkR
        · rw [hro0, Option.getD_some]
          exact (mem_addS sid x mems₀).mpr (Or.inl hxm0)
      · rw [show lookupA r (addToSetMap R sid s.rooms) = lookupA r s.rooms from
              lookupA_addToSetMap_ne R r sid s.rooms hrR]
        exact ⟨mems₀, hro0, hxm0⟩
  · exact hInv.usNodup
  · exact hInv.usSetsNodup
  · exact hInv.usNonempty
  · exact usOwner_updateA sid s hInv _ (fun c => rfl)
  · exact connInUs_updateA sid s hInv _ (fun c => rfl)

/-- Updating one session with a function preserving both `userId` and
`roomId` preserves the whole invariant (used for `audio:toggle`, `ping`). -/
theorem inv_updateA_conn (sid : String) (s : ServerState) (hInv : Inv s)
    (f : Session → Session) (hfid : ∀ c, (f c).userId = c.userId)
    (hfroom : ∀ c, (f c).roomId = c.roomId) :
    Inv { s with connections := updateA sid f s.connections } := by
  constructor
  · show (keysOf (updateA sid f s.connections)).Nodup
    rw [keysOf_updateA]
    exact hInv.connNodup
  · exact hInv.roomNodup
  · exact hInv.memsNodup
  · exact hInv.memsNonempty
  · intro r mems hr x hx
    obtain ⟨c, hcx, hcr⟩ := hInv.memAssigned r mems hr x hx
    rw [show lookupA x (updateA sid f s.connections) =
          if sid = x then (lookupA x s.connections).map f else lookupA x s.connections from
          lookupA_updateA sid x f s.connections]
    by_cases hsx : sid = x
    · rw [if_pos hsx, hcx]
      exact ⟨f c, rfl, by rw [hfroom c]; exact hcr⟩
    · rw [if_neg hsx]
      exact ⟨c, hcx, hcr⟩
  · intro x c' hx' r hr'
    rw [show lookupA x (updateA sid f s.connections) =
          if sid = x then (lookupA x s.connections).map f else lookupA x s.connections from
          lookupA_updateA sid x f s.connections] at hx'
    by_cases hsx : sid = x
    · rw [if_pos hsx] at hx'
      cases hcx : lookupA x s.connections with
      | none => rw [hcx] at hx'; exact Option.noConfusion hx'
      | some c =>
        rw [hcx] at hx'
        have h2 : some (f c) = some c' := hx'
        rw [Option.some_inj] at h2
        rw [← h2, hfroom c] at hr'
        exact hInv.assignedMem x c hcx r hr'
    · rw [if_neg hsx] at hx'
      exact hInv.assignedMem x c' hx' r hr'
  · exact hInv.usNodup
  · exact hInv.usSetsNodup
  · exact hInv.usNonempty
  · exact usOwner_updateA sid s hInv f hfid
  · exact connInUs_updateA sid s hInv f hfid

/-- The invariant never mentions the durable emergency queue. -/
theorem inv_emergencies (s : ServerState) (e : List Emergency) (hInv : Inv s) :
    Inv { s with emergencies := e } :=
  ⟨hInv.connNodup, hInv.roomNodup, hInv.memsNodup, hInv.memsNonempty,
   hInv.memAssigned, hInv.assignedMem, hInv.usNodup, hInv.usSetsNodup,
   hInv.usNonempty, hInv.usOwner, hInv.connInUs⟩

/-- Dropping a room-less session from the registry and from its user's
multi-device set preserves the invariant. -/
theorem inv_removePhase (sid : String) (t : ServerState) (hInv : Inv t) (c : Session)
    (hc : lookupA sid t.connections = some c) (hnone : c.roomId = none) :
    Inv { t with userSockets := removeFromSetMap c.userId sid t.userSockets,
                 connections := eraseA sid t.connections } := by
  constructor
  · exact keysOf_eraseA_nodup sid t.connections hInv.connNodup
  · exact hInv.roomNodup
  · exact hInv.memsNodup
  · exact hInv.memsNonempty
  · intro r mems hr x hx
    obtain ⟨c', hcx, hcr⟩ := hInv.memAssigned r mems hr x hx
    have hxne : x ≠ sid := by
      intro hh
      rw [hh, hc] at hcx
      rw [Option.some_inj] at hcx
      rw [← hcx, hnone] at hcr
      exact Option.noConfusion hcr
    refine ⟨c', ?_, hcr⟩
    show lookupA x (eraseA sid t.connections) = some c'
    rw [lookupA_eraseA, if_neg hxne]
    exact hcx
  · intro x c' hx' r hr'
    rw [show lookupA x (eraseA sid t.connections) =
          if x = sid then none else lookupA x t.connections from
          lookupA_eraseA sid x t.connections] at hx'
    by_cases hxs : x = sid
    · rw [if_pos hxs] at hx'
      exact Option.noConfusion hx'
    · rw [if_neg hxs] at hx'
      exact hInv.assignedMem x c' hx' r hr'
  · exact keysOf_removeFromSetMap_nodup c.userId sid t.userSockets hInv.usNodup
  · intro u set0 hu
    by_cases huu : c.userId = u
    · rw [← huu, lookupA_removeFromSetMap_self] at hu
      cases hb : lookupA c.userId t.userSockets with
      | none => rw [hb] at hu; exact Option.noConfusion hu
      | some base =>
        rw [hb] at hu
        have hu2 : (if base.erase sid = [] then none else some (base.erase sid)) = some set0 := hu
        by_cases hnil : base.erase sid = []
        · rw [if_pos hnil] at hu2; exact Option.noConfusion hu2
        · rw [if_neg hnil] at hu2
          rw [Option.some_inj] at hu2
          rw [← hu2]
          exact (hInv.usSetsNodup c.userId base hb).erase sid
    · rw [lookupA_removeFromSetMap_ne c.userId u sid t.userSockets huu] at hu
      exact hInv.usSetsNodup u set0 hu
  · intro u set0 hu
    by_cases huu : c.userId = u
    · rw [← huu, lookupA_removeFromSetMap_self] at hu
      cases hb : lookupA c.userId t.userSockets with
      | none => rw [hb] at hu; exact Option.noConfusion hu
      | some base =>
        rw [hb] at hu
        have hu2 : (if base.erase sid = [] then none else some (base.erase sid)) = some set0 := hu
        by_cases hnil : base.erase sid = []
        · rw [if_pos hnil] at hu2; exact Option.noConfusion hu2
        · rw [if_neg hnil] at hu2
          rw [Option.some_inj] at hu2
          rw [← hu2]
          exact hnil
    · rw [lookupA_removeFromSetMap_ne c.userId u sid t.userSockets huu] at hu
      exact hInv.usNonempty u set0 hu
  · intro u set0 hu x hx
    by_cases huu : c.userId = u
    · rw [← huu, lookupA_removeFromSetMap_self] at hu
      cases hb : lookupA c.userId t.userSockets with
      | none => rw [hb] at hu; exact Option.noConfusion hu
      | some base =>
        rw [hb] at hu
        have hu2 : (if base.erase sid = [] then none else some (base.erase sid)) = some set0 := hu
        by_cases hnil : base.erase sid = []
        · rw [if_pos hnil] at hu2; exact Option.noConfusion hu2
        · rw [if_neg hnil] at hu2
          rw [Option.some_inj] at hu2
          rw [← hu2] at hx
          obtain ⟨hxne, hxmem⟩ :=
            ((hInv.usSetsNodup c.userId base hb).mem_erase_iff).mp hx
          obtain ⟨c'', hcx, hcu⟩ := hInv.usOwner c.userId base hb x hxmem
          refine ⟨c'', ?_, by rw [← huu]; exact hcu⟩
          show lookupA x (eraseA sid t.connections) = some c''
          rw [lookupA_eraseA, if_neg hxne]
          exact hcx
    · obtain ⟨c'', hcx, hcu⟩ :=
        hInv.usOwner u set0
          (by rw [← lookupA_removeFromSetMap_ne c.userId u sid t.userSockets huu]; exact hu) x hx
      have hxne : x ≠ sid := by
        intro hh
        rw [hh, hc] at hcx
        rw [Option.some_inj] at hcx
        rw [← hcx] at hcu
        exact huu hcu
      refine ⟨c'', ?_, hcu⟩
      show lookupA x (eraseA sid t.connections) = some c''
      rw [lookupA_eraseA, if_neg hxne]
      exact hcx
  · intro x c' hx'
    rw [show lookupA x (eraseA sid t.connections) =
          if x = sid then none else lookupA x t.connections from
          lookupA_eraseA sid x t.connections] at hx'
    by_cases hxs : x = sid
    · rw [if_pos hxs] at hx'
      exact Option.noConfusion hx'
    · rw [if_neg hxs] at hx'
      obtain ⟨set0, hset, hxin⟩ := hInv.connInUs x c' hx'
      by_cases huu : c.userId = c'.userId
      · have hnd : set0.Nodup := hInv.usSetsNodup c'.userId set0 hset
        have hxe : x ∈ set0.erase sid := hnd.mem_erase_iff.mpr ⟨hxs, hxin⟩
        have hnil : set0.erase sid ≠ [] := List.ne_nil_of_mem hxe
        refine ⟨set0.erase sid, ?_, hxe⟩
        rw [← huu, lookupA_removeFromSetMap_self,
            show lookupA c.userId t.userSockets = some set0 by rw [huu]; exact hset]
        show (if set0.erase sid = [] then none else some (set0.erase sid)) = _
        rw [if_neg hnil]
      · refine ⟨set0, ?_, hxin⟩
        rw [lookupA_removeFromSetMap_ne c.userId c'.userId sid t.userSockets huu]
        exact hset

theorem inv_disconnect (sid : String) (s : ServerState) (hInv : Inv s) (sess : Session)
    (hc : lookupA sid s.connections = some sess) :
    Inv (handleDisconnect sid sess.userId s).1 := by
  have hInv1 := inv_leaveRoom sid s hInv
  have hc1 := leaveRoom_lookup_self sid s sess hc
  exact inv_removePhase sid (leaveRoom sid s).1 hInv1 { sess with roomId := none } hc1 rfl

/-!
### `room:join` characterizations and preservation
-/

theorem handleJoin_noId (sid uid uname : String) (s : ServerState) :
    handleJoin sid uid uname none s = (s, [Event.errorMsg sid "Room ID required"]) := rfl

theorem handleJoin_emptyId (sid uid uname : String) (s : ServerState) (R : String)
    (hRe : R = "") :
    handleJoin sid uid uname (some R) s = (s, [Event.errorMsg sid "Room ID required"]) := by
  unfold handleJoin
  simp only [if_pos hRe]

theorem handleJoin_noConn (sid uid uname : String) (s : ServerState) (R : String)
    (hRe : R ≠ "") (hc : lookupA sid s.connections = none) :
    handleJoin sid uid uname (some R) s = (s, [Event.errorMsg sid "Failed to join room"]) := by
  unfold handleJoin
  simp only [if_neg hRe, hc]

theorem handleJoin_roomNone (sid uid uname : String) (s : ServerState) (R : String)
    (conn0 : Session) (hRe : R ≠ "") (hc : lookupA sid s.connections = some conn0)
    (hro : conn0.roomId = none) :
    handleJoin sid uid uname (some R) s =
      (joinApply sid R s,
       [Event.roomJoined sid R (getRoomParticipants R (joinApply sid R s))]
         ++ (((lookupA R (joinApply sid R s).rooms).getD []).erase sid).map
              (fun t => Event.participantJoined t uid uname sid)
         ++ [Event.roomState sid R (getRoomParticipants R (joinApply sid R s))
               (getRoomParticipants R (joinApply sid R s)).length]) := by
  unfold handleJoin
  simp only [if_neg hRe, hc, hro, List.nil_append]

theorem handleJoin_roomSome (sid uid uname : String) (s : ServerState) (R : String)
    (conn0 : Session) (R0 : String) (hRe : R ≠ "")
    (hc : lookupA sid s.connections = some conn0) (hro : conn0.roomId = some R0) :
    handleJoin sid uid uname (some R) s =
      (joinApply sid R (leaveRoom sid s).1,
       (leaveRoom sid s).2
         ++ [Event.roomJoined sid R (getRoomParticipants R (joinApply sid R (leaveRoom sid s).1))]
         ++ (((lookupA R (joinApply sid R (leaveRoom sid s).1).rooms).getD []).erase sid).map
              (fun t => Event.participantJoined t uid uname sid)
         ++ [Event.roomState sid R
               (getRoomParticipants R (joinApply sid R (leaveRoom sid s).1))
               (getRoomParticipants R (joinApply sid R (leaveRoom sid s).1)).length]) := by
  unfold handleJoin
  simp only [if_neg hRe, hc, hro]

theorem inv_join (sid uid uname : String) (ro : Option String) (s : ServerState)
    (hInv : Inv s) : Inv (handleJoin sid uid uname ro s).1 := by
  cases ro with
  | none => exact hInv
  | some R =>
    by_cases hRe : R = ""
    · rw [handleJoin_emptyId sid uid uname s R hRe]
      exact hInv
    · cases hc : lookupA sid s.connections with
      | none =>
        rw [handleJoin_noConn sid uid uname s R hRe hc]
        exact hInv
      | some conn0 =>
        cases hro : conn0.roomId with
        | none =>
          rw [handleJoin_roomNone sid uid uname s R conn0 hRe hc hro]
          exact inv_joinApply sid R s hInv conn0 hc hro
        | some R0 =>
          rw [handleJoin_roomSome sid uid uname s R conn0 R0 hRe hc hro]
          exact inv_joinApply sid R (leaveRoom sid s).1 (inv_leaveRoom sid s hInv)
            { conn0 with roomId := none } (leaveRoom_lookup_self sid s conn0 hc) rfl

/-!
### Remaining operations and the reachability argument
-/

theorem handleAudioToggle_none (sid uid uname : String) (m : Bool) (s : ServerState)
    (h : lookupA sid s.connections = none) :
    handleAudioToggle sid uid uname m s = (s, []) := by
  unfold handleAudioToggle
  rw [h]

theorem handleAudioToggle_noroom (sid uid uname : String) (m : Bool) (s : ServerState)
    (conn : Session) (h : lookupA sid s.connections = some conn)
    (h2 : conn.roomId = none) : handleAudioToggle sid uid uname m s = (s, []) := by
  unfold handleAudioToggle
  simp only [h, h2]

theorem handleAudioToggle_room (sid uid uname : String) (m : Bool) (s : ServerState)
    (conn : Session) (R : String) (h : lookupA sid s.connections = some conn)
    (h2 : conn.roomId = some R) :
    handleAudioToggle sid uid uname m s =
      ({ s with connections :=
           updateA sid (fun c => { c with audioMuted := m }) s.connections },
       ((lookupA R s.rooms).getD []).map (fun t => Event.audioChanged t uid uname m)) := by
  unfold handleAudioToggle
  simp only [h, h2]

theorem inv_audio (sid uid uname : String) (m : Bool) (s : ServerState) (hInv : Inv s) :
    Inv (handleAudioToggle sid uid uname m s).1 := by
  cases hc : lookupA sid s.connections with
  | none => rw [handleAudioToggle_none sid uid uname m s hc]; exact hInv
  | some conn =>
    cases hro : conn.roomId with
    | none => rw [handleAudioToggle_noroom sid uid uname m s conn hc hro]; exact hInv
    | some R =>
      rw [handleAudioToggle_room sid uid uname m s conn R hc hro]
      exact inv_updateA_conn sid s hInv _ (fun c => rfl) (fun c => rfl)

theorem inv_ping (sid : String) (now : Nat) (s : ServerState) (hInv : Inv s) :
    Inv (handlePing sid now s).1 := by
  unfold handlePing
  cases hc : lookupA sid s.connections with
  | none => exact hInv
  | some conn =>
    exact inv_updateA_conn sid s hInv _ (fun c => rfl) (fun c => rfl)

theorem inv_mute (csid cname crole tsid : String) (s : ServerState) (hInv : Inv s) :
    Inv (handleMute csid cname crole tsid s).1 := by
  unfold handleMute
  by_cases h : crole ≠ "admin"
  · rw [if_pos h]; exact hInv
  · rw [if_neg h]
    cases h2 : lookupA tsid s.connections with
    | none => exact hInv
    | some _ => exact hInv

theorem handleEmergency_none (sid uid uname loc msg : String) (now : Nat)
    (s : ServerState) (h : lookupA sid s.connections = none) :
    handleEmergency sid uid uname loc msg now s = (s, []) := by
  unfold handleEmergency
  rw [h]

theorem handleEmergency_noroom (sid uid uname loc msg : String) (now : Nat)
    (s : ServerState) (conn : Session) (h : lookupA sid s.connections = some conn)
    (h2 : conn.roomId = none) : handleEmergency sid uid uname loc msg now s = (s, []) := by
  unfold handleEmergency
  simp only [h, h2]

theorem handleEmergency_room (sid uid uname loc msg : String) (now : Nat)
    (s : ServerState) (conn : Session) (R : String)
    (h : lookupA sid s.connections = some conn) (h2 : conn.roomId = some R) :
    handleEmergency sid uid uname loc msg now s =
      ({ s with emergencies :=
           { userId := uid, userName := uname, location := loc, message := msg,
             ts := now, roomId := R } :: s.emergencies },
       (((lookupA R s.rooms).getD []).filter (fun t =>
           match lookupA t s.connections with
           | some c => c.userRole == "admin"
           | none => false)).map
         (fun t => Event.emergencyReceived t
           { userId := uid, userName := uname, location := loc, message := msg,
             ts := now, roomId := R })
         ++ [Event.emergencySent sid]) := by
  unfold handleEmergency
  simp only [h, h2]

theorem inv_emergency (sid uid uname loc msg : String) (now : Nat) (s : ServerState)
    (hInv : Inv s) : Inv (handleEmergency sid uid uname loc msg now s).1 := by
  cases hc : lookupA sid s.connections with
  | none => rw [handleEmergency_none sid uid uname loc msg now s hc]; exact hInv
  | some conn =>
    cases hro : conn.roomId with
    | none => rw [handleEmergency_noroom sid uid uname loc msg now s conn hc hro]; exact hInv
    | some R =>
      rw [handleEmergency_room sid uid uname loc msg now s conn R hc hro]
      exact inv_emergencies s _ hInv

theorem inv_kick (csid cname crole tsid : String) (reason : Option String)
    (s : ServerState) (hInv : Inv s) :
    Inv (handleKick csid cname crole tsid reason s).1 := by
  unfold handleKick
  by_cases h : crole ≠ "admin"
  · rw [if_pos h]; exact hInv
  · rw [if_neg h]
    cases ht : lookupA tsid s.connections with
    | none => exact hInv
    | some targetUser =>
      exact inv_disconnect tsid (leaveRoom tsid s).1 (inv_leaveRoom tsid s hInv)
        { targetUser with roomId := none } (leaveRoom_lookup_self tsid s targetUser ht)

theorem inv_cleanupGo (now : Nat) :
    ∀ (l : List String) (t : ServerState), Inv t → Inv (cleanupGo now l t).1 := by
  intro l
  induction l with
  | nil => intro t h; exact h
  | cons sid rest ih =>
    intro t h
    unfold cleanupGo
    cases hc : lookupA sid t.connections with
    | none => exact ih t h
    | some conn =>
      by_cases hst : isStale now conn = true
      · simp only [if_pos hst]
        have hInvD : Inv (handleDisconnect sid conn.userId t).1 :=
          inv_disconnect sid t h conn hc
        have heq : eraseA sid (handleDisconnect sid conn.userId t).1.connections =
            (handleDisconnect sid conn.userId t).1.connections :=
          eraseA_of_lookupA_none sid _ (handleDisconnect_lookup_self sid conn.userId t)
        have hInv2 : Inv { (handleDisconnect sid conn.userId t).1 with
            connections := eraseA sid (handleDisconnect sid conn.userId t).1.connections } := by
          rw [serverState_eta_conn _ _ heq]
          exact hInvD
        exact ih _ hInv2
      · simp only [if_neg hst]
        exact ih t h

theorem inv_cleanup (now : Nat) (s : ServerState) (hInv : Inv s) :
    Inv (cleanupStaleConnections now s).1 :=
  inv_cleanupGo now (keysOf s.connections) s hInv

theorem inv_initial : Inv initialState := by
  refine ⟨?_, ?_, ?_, ?_, ?_, ?_, ?_, ?_, ?_, ?_, ?_⟩ <;>
    simp [initialState, keysOf, lookupA]

theorem step_inv {s s' : ServerState} (hs : Step s s') (hInv : Inv s) : Inv s' := by
  cases hs with
  | connect sid uid uname urole now hfresh =>
    exact inv_connect s sid uid uname urole now hInv hfresh
  | roomJoin sid uid uname ro => exact inv_join sid uid uname ro s hInv
  | roomLeave sid => exact inv_leaveRoom sid s hInv
  | audioToggle sid uid uname m => exact inv_audio sid uid uname m s hInv
  | adminKick csid cname crole tsid reason =>
    exact inv_kick csid cname crole tsid reason s hInv
  | adminMute csid cname crole tsid => exact inv_mute csid cname crole tsid s hInv
  | emergencyAlert sid uid uname loc msg now =>
    exact inv_emergency sid uid uname loc msg now s hInv
  | heartbeat sid now => exact inv_ping sid now s hInv
  | disconnect sid sess hreg => exact inv_disconnect sid s hInv sess hreg
  | reap now => exact inv_cleanup now s hInv

theorem reachable_inv {s : ServerState} (h : Reachable s) : Inv s := by
  unfold Reachable at h
  induction h with
  | refl => exact inv_initial
  | tail h1 h2 ih => exact step_inv h2 ih

/-!
## Claim C1: registry/index agreement
-/

/-- The spec's registry/index agreement property: every registered session
is a member of exactly the room its `roomId` names (and of no room when
`roomId` is null), the named room exists in the index, and every indexed
room's membership size equals the number of sessions assigned to it. -/
def RegistryIndexAgree (s : ServerState) : Prop :=
  (∀ p ∈ s.connections, ∀ q ∈ s.rooms, (p.1 ∈ q.2 ↔ p.2.roomId = some q.1)) ∧
  (∀ p ∈ s.connections, ∀ r ∈ p.2.roomId.toList, (lookupA r s.rooms).isSome = true) ∧
  (∀ q ∈ s.rooms,
    q.2.length = (s.connections.filter (fun p => decide (p.2.roomId = some q.1))).length)

theorem inv_registryIndexAgree (s : ServerState) (hInv : Inv s) : RegistryIndexAgree s := by
  refine ⟨?_, ?_, ?_⟩
  · intro p hp q hq
    have hlp : lookupA p.1 s.connections = some p.2 :=
      lookupA_of_mem p.1 p.2 s.connections hInv.connNodup hp
    have hlq : lookupA q.1 s.rooms = some q.2 :=
      lookupA_of_mem q.1 q.2 s.rooms hInv.roomNodup hq
    constructor
    · intro hmem
      exact hInv.in_room_eq hlp hlq hmem
    · intro hass
      obtain ⟨mems, hm, hin⟩ := hInv.assignedMem p.1 p.2 hlp q.1 hass
      rw [hlq] at hm
      rw [Option.some_inj] at hm
      rw [hm]
      exact hin
  · intro p hp r hr
    have hass : p.2.roomId = some r := by
      rw [Option.mem_toList, Option.mem_def] at hr
      exact hr
    have hlp : lookupA p.1 s.connections = some p.2 :=
      lookupA_of_mem p.1 p.2 s.connections hInv.connNodup hp
    obtain ⟨mems, hm, hin⟩ := hInv.assignedMem p.1 p.2 hlp r hass
    rw [hm]
    rfl
  · intro q hq
    have hlq : lookupA q.1 s.rooms = some q.2 :=
      lookupA_of_mem q.1 q.2 s.rooms hInv.roomNodup hq
    have hndm : q.2.Nodup := hInv.memsNodup q.1 q.2 hlq
    have hndF : (keysOf (s.connections.filter
        (fun p => decide (p.2.roomId = some q.1)))).Nodup :=
      List.Nodup.sublist ((List.filter_sublist s.connections).map Prod.fst) hInv.connNodup
    have hmemiff : ∀ x, x ∈ q.2 ↔
        x ∈ keysOf (s.connections.filter (fun p => decide (p.2.roomId = some q.1))) := by
      intro x
      constructor
      · intro hx
        obtain ⟨c, hcx, hcr⟩ := hInv.memAssigned q.1 q.2 hlq x hx
        have hmem : (x, c) ∈ s.connections := mem_of_lookupA x c s.connections hcx
        exact List.mem_map.mpr
          ⟨(x, c), List.mem_filter.mpr ⟨hmem, decide_eq_true hcr⟩, rfl⟩
      · intro hx
        obtain ⟨p, hpF, hpx⟩ := List.mem_map.mp hx
        obtain ⟨hpc, hpd⟩ := List.mem_filter.mp hpF
        have hass : p.2.roomId = some q.1 := of_decide_eq_true hpd
        have hlp : lookupA p.1 s.connections = some p.2 :=
          lookupA_of_mem p.1 p.2 s.connections hInv.connNodup hpc
        obtain ⟨mems, hm, hin⟩ := hInv.assignedMem p.1 p.2 hlp q.1 hass
        rw [hlq] at hm
        rw [Option.some_inj] at hm
        rw [hm]
        rw [← hpx]
        exact hin
    have hfeq : q.2.toFinset =
        (keysOf (s.connections.filter (fun p => decide (p.2.roomId = some q.1)))).toFinset :=
      Finset.ext fun a => by
        rw [List.mem_toFinset, List.mem_toFinset]
        exact hmemiff a
    calc q.2.length
        = q.2.toFinset.card := (List.toFinset_card_of_nodup hndm).symm
      _ = (keysOf (s.connections.filter
            (fun p => decide (p.2.roomId = some q.1)))).toFinset.card := by rw [hfeq]
      _ = (keysOf (s.connections.filter
            (fun p => decide (p.2.roomId = some q.1)))).length :=
          List.toFinset_card_of_nodup hndF
      _ = (s.connections.filter (fun p => decide (p.2.roomId = some q.1))).length :=
          List.length_map _ _

/-- Claim C1: in every state reachable by any sequence of operations
(connect, room:join, room:leave, audio:toggle, admin:kick, admin:mute,
emergency:alert, ping, disconnect, stale-connection cleanup), a session's
`roomId` is non-null iff its connection id is a member of exactly room
`roomId`'s membership set, and each indexed room's membership size equals
the count of sessions whose `roomId` equals that room. -/
theorem registry_room_index_agreement (s : ServerState) (h : Reachable s) :
    RegistryIndexAgree s :=
  inv_registryIndexAgree s (reachable_inv h)

/-!
### A concrete reachable state for witnesses: two users in room "alpha"
-/

def stateA1 : ServerState := (handleConnect "s1" "u1" "Alice" "admin" 0 initialState).1

def stateA2 : ServerState := (handleConnect "s2" "u2" "Bob" "member" 0 stateA1).1

def stateA3 : ServerState := (handleJoin "s1" "u1" "Alice" (some "alpha") stateA2).1

def stateA : ServerState := (handleJoin "s2" "u2" "Bob" (some "alpha") stateA3).1

theorem reach_stateA : Reachable stateA := by
  have h1 : Step initialState stateA1 :=
    Step.connect initialState "s1" "u1" "Alice" "admin" 0 (by decide)
  have h2 : Step stateA1 stateA2 :=
    Step.connect stateA1 "s2" "u2" "Bob" "member" 0 (by decide)
  have h3 : Step stateA2 stateA3 := Step.roomJoin stateA2 "s1" "u1" "Alice" (some "alpha")
  have h4 : Step stateA3 stateA := Step.roomJoin stateA3 "s2" "u2" "Bob" (some "alpha")
  exact Relation.ReflTransGen.tail
    (Relation.ReflTransGen.tail
      (Relation.ReflTransGen.tail (Relation.ReflTransGen.single h1) h2) h3) h4

/-- Witness for C1: the concrete four-step trace reaching two sessions in
room "alpha" satisfies the agreement property. -/
theorem registry_room_index_agreement_witness :
    Reachable stateA ∧ RegistryIndexAgree stateA :=
  ⟨reach_stateA, registry_room_index_agreement stateA reach_stateA⟩

/-- Bob's session record inside `stateA`. -/
def bobSessA : Session :=
  { userId := "u2", userName := "Bob", userRole := "member",
    connectedAt := 0, roomId := some "alpha", isActive := true,
    audioMuted := false, lastPing := none }

/-- Alice's session record inside `stateA`. -/
def aliceSessA : Session :=
  { userId := "u1", userName := "Alice", userRole := "admin",
    connectedAt := 0, roomId := some "alpha", isActive := true,
    audioMuted := false, lastPing := none }

/-!
## Claim C2: non-admin moderation is rejected without side effects
-/

/-- Claim C2: for every registered session whose role is not `admin`,
invoking `admin:kick` or `admin:mute` (with any target and any payload)
returns the state completely unchanged and emits exactly one
`error {message:'Unauthorized'}` event to the caller — so the registry,
room index and multiplicity tracker are untouched and no other connection
receives any event. -/
theorem nonadmin_moderation_rejected (s : ServerState) (csid tsid : String)
    (sess : Session) (reason : Option String)
    (hreg : lookupA csid s.connections = some sess) (hrole : sess.userRole ≠ "admin") :
    handleKick csid sess.userName sess.userRole tsid reason s =
      (s, [Event.errorMsg csid "Unauthorized"]) ∧
    handleMute csid sess.userName sess.userRole tsid s =
      (s, [Event.errorMsg csid "Unauthorized"]) := by
  constructor
  · unfold handleKick
    rw [if_pos hrole]
  · unfold handleMute
    rw [if_pos hrole]

/-- Witness for C2: member Bob trying to kick or mute admin Alice. -/
theorem nonadmin_moderation_rejected_witness :
    (lookupA "s2" stateA.connections = some bobSessA ∧ bobSessA.userRole ≠ "admin") ∧
    handleKick "s2" bobSessA.userName bobSessA.userRole "s1" none stateA =
      (stateA, [Event.errorMsg "s2" "Unauthorized"]) ∧
    handleMute "s2" bobSessA.userName bobSessA.userRole "s1" stateA =
      (stateA, [Event.errorMsg "s2" "Unauthorized"]) :=
  ⟨⟨by decide, by decide⟩,
   nonadmin_moderation_rejected stateA "s2" "s1" bobSessA none (by decide) (by decide)⟩

/-!
## Claim C8: leave is idempotent
-/

/-- Claim C8: for a session in room `R`, the first `room:leave` emits
exactly one `participant:left` fan-out — one event per remaining member of
`R` — and the second `room:leave` finds `roomId` null, returns the state
unchanged and emits no events. -/
theorem leave_room_idempotent (sid : String) (s : ServerState) (sess : Session)
    (R : String) (mems : List String)
    (h1 : lookupA sid s.connections = some sess) (h2 : sess.roomId = some R)
    (hm : lookupA R s.rooms = some mems) :
    (leaveRoom sid s).2 =
      (mems.erase sid).map (fun t => Event.participantLeft t sess.userId sess.userName) ∧
    leaveRoom sid (leaveRoom sid s).1 = ((leaveRoom sid s).1, []) := by
  constructor
  · rw [leaveRoom_of_room sid s sess R h1 h2]
    show ((lookupA R (removeFromSetMap R sid s.rooms)).getD []).map _ = _
    rw [audience_after_remove R sid s mems hm]
  · exact leaveRoom_of_noroom sid (leaveRoom sid s).1 { sess with roomId := none }
      (leaveRoom_lookup_self sid s sess h1) rfl

/-- Witness for C8: Bob leaves "alpha" twice; the first call fans out one
`participant:left` (to Alice), the second is a no-op. -/
theorem leave_room_idempotent_witness :
    (lookupA "s2" stateA.connections = some bobSessA ∧ bobSessA.roomId = some "alpha" ∧
      lookupA "alpha" stateA.rooms = some ["s1", "s2"]) ∧
    (leaveRoom "s2" stateA).2 =
      (["s1", "s2"].erase "s2").map
        (fun t => Event.participantLeft t bobSessA.userId bobSessA.userName) ∧
    leaveRoom "s2" (leaveRoom "s2" stateA).1 = ((leaveRoom "s2" stateA).1, []) :=
  ⟨⟨by decide, by decide, by decide⟩,
   leave_room_idempotent "s2" stateA bobSessA "alpha" ["s1", "s2"]
     (by decide) (by decide) (by decide)⟩

/-!
## Claim C9: audio:toggle behavior
-/

/-- Claim C9: for a session in a room, `audio:toggle` records the new muted
flag on the sender's session and delivers `participant:audio-changed`
(carrying the sender's `userId`, `userName` and the new `isMuted` value) to
every connection in that room — in particular to the sender itself, which is
a room member; for a session not in a room it changes nothing and delivers
nothing. -/
theorem audio_toggle_behavior (sid : String) (m : Bool) (s : ServerState) (sess : Session)
    (h1 : lookupA sid s.connections = some sess) :
    (∀ R, sess.roomId = some R →
      handleAudioToggle sid sess.userId sess.userName m s =
        ({ s with connections :=
             updateA sid (fun c => { c with audioMuted := m }) s.connections },
         ((lookupA R s.rooms).getD []).map
           (fun t => Event.audioChanged t sess.userId sess.userName m)) ∧
      lookupA sid (handleAudioToggle sid sess.userId sess.userName m s).1.connections =
        some { sess with audioMuted := m } ∧
      (sid ∈ (lookupA R s.rooms).getD [] →
        Event.audioChanged sid sess.userId sess.userName m ∈
          (handleAudioToggle sid sess.userId sess.userName m s).2)) ∧
    (sess.roomId = none → handleAudioToggle sid sess.userId sess.userName m s = (s, [])) := by
  constructor
  · intro R hro
    have hchar := handleAudioToggle_room sid sess.userId sess.userName m s sess R h1 hro
    refine ⟨hchar, ?_, ?_⟩
    · rw [hchar]
      show lookupA sid (updateA sid _ s.connections) = _
      rw [lookupA_updateA, if_pos rfl, h1]
      rfl
    · intro hmem
      rw [hchar]
      exact List.mem_map.mpr ⟨sid, hmem, rfl⟩
  · intro hro
    exact handleAudioToggle_noroom sid sess.userId sess.userName m s sess h1 hro

/-- Witness for C9: Bob mutes in "alpha"; his flag is recorded and he
himself receives the `participant:audio-changed` event. -/
theorem audio_toggle_behavior_witness :
    lookupA "s2" stateA.connections = some bobSessA ∧
    lookupA "s2" (handleAudioToggle "s2" "u2" "Bob" true stateA).1.connections =
      some { bobSessA with audioMuted := true } ∧
    Event.audioChanged "s2" "u2" "Bob" true ∈
      (handleAudioToggle "s2" "u2" "Bob" true stateA).2 := by
  have h := audio_toggle_behavior "s2" true stateA bobSessA (by decide)
  obtain ⟨hsome, hnone⟩ := h
  obtain ⟨hchar, hflag, hmem⟩ := hsome "alpha" (by decide)
  exact ⟨by decide, hflag, hmem (by decide)⟩

/-!
## Claim C5 (corrected): emergency:alert outside a room is a SILENT no-op

The claim states the caller receives a `NotInRoom` rejection/error event.
The handler's guard is `if (!connection.roomId) return;` — it emits
nothing at all.  The no-mutation/no-other-event half of the claim holds.
-/

/-- Counterexample for C5: in a state where both users are connected but
no one has joined a room, `emergency:alert` from "s1" returns the state
unchanged and emits NO event whatsoever — in particular the caller receives
no rejection/error event, contradicting the claim. -/
theorem emergency_not_in_room_counterexample :
    handleEmergency "s1" "u1" "Alice" "here" "help" 7 stateA2 = (stateA2, []) := by
  decide

/-- Claim C5 (amended): for every session whose `roomId` is null, raising
`emergency:alert` is a silent no-op: no alert is appended to the durable
queue, no `emergency:received` or `emergency:sent` event is emitted, and —
contrary to the original claim — no error event is delivered to the caller
either; the handler simply returns. -/
theorem emergency_not_in_room_noop (sid uid uname loc msg : String) (now : Nat)
    (s : ServerState) (sess : Session) (h1 : lookupA sid s.connections = some sess)
    (h2 : sess.roomId = none) :
    handleEmergency sid uid uname loc msg now s = (s, []) :=
  handleEmergency_noroom sid uid uname loc msg now s sess h1 h2

def bobSessA2 : Session :=
  { userId := "u2", userName := "Bob", userRole := "member",
    connectedAt := 0, roomId := none, isActive := true,
    audioMuted := false, lastPing := none }

/-- Witness for the amended C5: Bob, connected but in no room. -/
theorem emergency_not_in_room_noop_witness :
    (lookupA "s2" stateA2.connections = some bobSessA2 ∧ bobSessA2.roomId = none) ∧
    handleEmergency "s2" "u2" "Bob" "loc" "sos" 9 stateA2 = (stateA2, []) :=
  ⟨⟨by decide, by decide⟩,
   emergency_not_in_room_noop "s2" "u2" "Bob" "loc" "sos" 9 stateA2 bobSessA2
     (by decide) (by decide)⟩

/-!
## Claim C6: emergency:alert inside a room
-/

/-- Claim C6: for a session in room `R`, `emergency:alert` appends exactly
one alert record at the head of the durable queue (Redis `lPush`,
newest first) and emits exactly one `emergency:sent` acknowledgment to the
sender, unconditionally; `emergency:received` is delivered to exactly the
current members of `R` whose registered role is `'admin'` — and when that
admin set is empty the event list is just the sender acknowledgment while
the queue append still happens. -/
theorem emergency_in_room_behavior (sid loc msg : String) (now : Nat) (s : ServerState)
    (sess : Session) (R : String)
    (h1 : lookupA sid s.connections = some sess) (h2 : sess.roomId = some R) :
    (handleEmergency sid sess.userId sess.userName loc msg now s).1 =
      { s with emergencies :=
          { userId := sess.userId, userName := sess.userName, location := loc,
            message := msg, ts := now, roomId := R } :: s.emergencies } ∧
    (handleEmergency sid sess.userId sess.userName loc msg now s).2 =
      (((lookupA R s.rooms).getD []).filter (fun t =>
          match lookupA t s.connections with
          | some c => c.userRole == "admin"
          | none => false)).map
        (fun t => Event.emergencyReceived t
          { userId := sess.userId, userName := sess.userName, location := loc,
            message := msg, ts := now, roomId := R })
        ++ [Event.emergencySent sid] ∧
    (((lookupA R s.rooms).getD []).filter (fun t =>
        match lookupA t s.connections with
        | some c => c.userRole == "admin"
        | none => false) = [] →
      (handleEmergency sid sess.userId sess.userName loc msg now s).2 =
        [Event.emergencySent sid]) := by
  have hchar := handleEmergency_room sid sess.userId sess.userName loc msg now s sess R h1 h2
  refine ⟨?_, ?_, ?_⟩
  · rw [hchar]
  · rw [hchar]
  · intro hempty
    rw [hchar]
    show _ ++ [Event.emergencySent sid] = [Event.emergencySent sid]
    rw [hempty]
    rfl

/-- Witness for C6: Bob raises an emergency in "alpha"; the alert is
queued, admin Alice receives `emergency:received`, and Bob receives the
`emergency:sent` acknowledgment. -/
theorem emergency_in_room_behavior_witness :
    (lookupA "s2" stateA.connections = some bobSessA ∧ bobSessA.roomId = some "alpha") ∧
    (handleEmergency "s2" bobSessA.userId bobSessA.userName "loc" "sos" 9 stateA).1.emergencies =
      [{ userId := "u2", userName := "Bob", location := "loc",
         message := "sos", ts := 9, roomId := "alpha" }] ∧
    (handleEmergency "s2" bobSessA.userId bobSessA.userName "loc" "sos" 9 stateA).2 =
      [Event.emergencyReceived "s1"
         { userId := "u2", userName := "Bob", location := "loc",
           message := "sos", ts := 9, roomId := "alpha" },
       Event.emergencySent "s2"] := by
  have h := emergency_in_room_behavior "s2" "loc" "sos" 9 stateA bobSessA "alpha"
    (by decide) (by decide)
  refine ⟨⟨by decide, by decide⟩, ?_, ?_⟩
  · rw [h.1]
    decide
  · rw [h.2.1]
    decide

/-!
## Claim C7 (corrected): duplicate registration overwrites, no error

The claim states registration of an already-present connection id fails
with `DuplicateConnection` and leaves the existing entry unchanged.  The
source (connection.js line 50) performs `connections.set(socket.id, {...})`
unconditionally: no duplicate check exists anywhere, no error is emitted,
and the previous entry is overwritten.  (At the transport layer socket.io
never hands out a live id twice, which is why the reachable-state relation
registers only fresh ids.)
-/

/-- Counterexample for C7: registering "s1" again while "s1" is in room
"alpha" emits no event (no `DuplicateConnection`, no refusal) and replaces
the existing entry (Alice-in-alpha) with a fresh room-less session. -/
theorem duplicate_register_counterexample :
    lookupA "s1" stateA.connections = some aliceSessA ∧
    (handleConnect "s1" "u9" "Eve" "member" 99 stateA).2 = [] ∧
    lookupA "s1" (handleConnect "s1" "u9" "Eve" "member" 99 stateA).1.connections ≠
      some aliceSessA := by
  refine ⟨by decide, rfl, by decide⟩

/-- Claim C7 (amended): registering a connection whose id already exists in
the registry does not fail: the handler emits no event at all and
overwrites the existing entry with a freshly initialized session
(`roomId` null, muted false, heartbeat unset), leaving the room index
untouched. -/
theorem duplicate_register_overwrites (sid uid uname urole : String) (now : Nat)
    (s : ServerState) (old : Session) (h : lookupA sid s.connections = some old) :
    (handleConnect sid uid uname urole now s).2 = [] ∧
    lookupA sid (handleConnect sid uid uname urole now s).1.connections =
      some { userId := uid, userName := uname, userRole := urole,
             connectedAt := now, roomId := none, isActive := true,
             audioMuted := false, lastPing := none } ∧
    (handleConnect sid uid uname urole now s).1.rooms = s.rooms := by
  refine ⟨rfl, ?_, rfl⟩
  show lookupA sid (setA sid _ s.connections) = _
  rw [lookupA_setA, if_pos rfl]

/-!
## Claim C3: the stale-connection reaper

`AbsentAll sid t` says connection `sid` has been fully cleaned out of `t`:
gone from the registry, from every room's member set, and from every user's
multi-device set.
-/

def AbsentAll (sid : String) (t : ServerState) : Prop :=
  lookupA sid t.connections = none ∧
  (∀ r mems, lookupA r t.rooms = some mems → sid ∉ mems) ∧
  (∀ u set0, lookupA u t.userSockets = some set0 → sid ∉ set0)

theorem forceDisconnect_fst (sid uid : String) (s : ServerState) :
    (forceDisconnect sid uid s).1 = (handleDisconnect sid uid s).1 := rfl

theorem leaveRoom_lookup_other (o sid : String) (t : ServerState) (hne : o ≠ sid) :
    lookupA sid (leaveRoom o t).1.connections = lookupA sid t.connections := by
  cases hc : lookupA o t.connections with
  | none => rw [leaveRoom_of_none o t hc]
  | some sess =>
    cases hro : sess.roomId with
    | none => rw [leaveRoom_of_noroom o t sess hc hro]
    | some R =>
      rw [leaveRoom_of_room o t sess R hc hro]
      show lookupA sid (updateA o _ t.connections) = _
      rw [lookupA_updateA, if_neg hne]

theorem disconnect_lookup_other (o uid sid : String) (t : ServerState) (hne : o ≠ sid) :
    lookupA sid (handleDisconnect o uid t).1.connections = lookupA sid t.connections := by
  show lookupA sid (eraseA o (leaveRoom o t).1.connections) = _
  rw [lookupA_eraseA, if_neg (fun hh : sid = o => hne hh.symm)]
  exact leaveRoom_lookup_other o sid t hne

theorem absentAll_leaveRoom (sid o : String) (t : ServerState) (h : AbsentAll sid t) :
    AbsentAll sid (leaveRoom o t).1 := by
  cases hc : lookupA o t.connections with
  | none => rw [leaveRoom_of_none o t hc]; exact h
  | some sess =>
    cases hro : sess.roomId with
    | none => rw [leaveRoom_of_noroom o t sess hc hro]; exact h
    | some R =>
      rw [leaveRoom_of_room o t sess R hc hro]
      obtain ⟨h1, h2, h3⟩ := h
      refine ⟨?_, ?_, h3⟩
      · show lookupA sid (updateA o _ t.connections) = none
        rw [lookupA_updateA]
        by_cases hos : o = sid
        · rw [if_pos hos, h1]
          rfl
        · rw [if_neg hos]
          exact h1
      · intro r mems' hr hmemx
        obtain ⟨mems, hm, hmem0⟩ :=
          mem_of_lookupA_removeFromSetMap R o r t.rooms mems' sid hr hmemx
        exact h2 r mems hm hmem0

theorem absentAll_disconnect (sid o uid : String) (t : ServerState) (h : AbsentAll sid t) :
    AbsentAll sid (handleDisconnect o uid t).1 := by
  obtain ⟨h1, h2, h3⟩ := absentAll_leaveRoom sid o t h
  refine ⟨?_, h2, ?_⟩
  · show lookupA sid (eraseA o (leaveRoom o t).1.connections) = none
    rw [lookupA_eraseA]
    by_cases hos : sid = o
    · rw [if_pos hos]
    · rw [if_neg hos]
      exact h1
  · intro u set0 hu hmemx
    obtain ⟨set1, hs1, hmem1⟩ :=
      mem_of_lookupA_removeFromSetMap uid o u (leaveRoom o t).1.userSockets set0 sid hu hmemx
    exact h3 u set1 hs1 hmem1

theorem absentAll_eraseConn (sid o : String) (t : ServerState) (h : AbsentAll sid t) :
    AbsentAll sid { t with connections := eraseA o t.connections } := by
  obtain ⟨h1, h2, h3⟩ := h
  refine ⟨?_, h2, h3⟩
  show lookupA sid (eraseA o t.connections) = none
  rw [lookupA_eraseA]
  by_cases hos : sid = o
  · rw [if_pos hos]
  · rw [if_neg hos]
    exact h1

theorem absentAll_cleanupGo (now : Nat) (sid : String) :
    ∀ (l : List String) (t : ServerState), AbsentAll sid t →
      AbsentAll sid (cleanupGo now l t).1 := by
  intro l
  induction l with
  | nil => intro t h; exact h
  | cons o rest ih =>
    intro t h
    unfold cleanupGo
    cases hc : lookupA o t.connections with
    | none => exact ih t h
    | some conn =>
      by_cases hst : isStale now conn = true
      · simp only [if_pos hst]
        exact ih _ (absentAll_eraseConn sid o _ (absentAll_disconnect sid o conn.userId t h))
      · simp only [if_neg hst]
        exact ih t h

/-- Disconnecting a registered session removes it from the registry, from
every room set and from every user's multi-device set. -/
theorem disconnect_absentAll (sid : String) (t : ServerState) (hInv : Inv t) (c : Session)
    (hc : lookupA sid t.connections = some c) :
    AbsentAll sid (handleDisconnect sid c.userId t).1 := by
  have hInv1 := inv_leaveRoom sid t hInv
  have hl1 : lookupA sid (leaveRoom sid t).1.connections = some { c with roomId := none } :=
    leaveRoom_lookup_self sid t c hc
  refine ⟨handleDisconnect_lookup_self sid c.userId t, ?_, ?_⟩
  · intro r mems hr hmemx
    exact hInv1.roomNone_not_mem hl1 rfl hr hmemx
  · intro u set0 hu hmemx
    by_cases huu : c.userId = u
    · have hu' : lookupA u
          (removeFromSetMap c.userId sid (leaveRoom sid t).1.userSockets) = some set0 := hu
      rw [← huu] at hu'
      rw [lookupA_removeFromSetMap_self] at hu'
      cases hb : lookupA c.userId (leaveRoom sid t).1.userSockets with
      | none => rw [hb] at hu'; exact Option.noConfusion hu'
      | some base =>
        rw [hb] at hu'
        have hu2 : (if base.erase sid = [] then none else some (base.erase sid)) =
            some set0 := hu'
        by_cases hnil : base.erase sid = []
        · rw [if_pos hnil] at hu2
          exact Option.noConfusion hu2
        · rw [if_neg hnil] at hu2
          rw [Option.some_inj] at hu2
          rw [← hu2] at hmemx
          exact ((hInv1.usSetsNodup c.userId base hb).mem_erase_iff.mp hmemx).1 rfl
    · have hu' : lookupA u
          (removeFromSetMap c.userId sid (leaveRoom sid t).1.userSockets) = some set0 := hu
      rw [lookupA_removeFromSetMap_ne c.userId u sid _ huu] at hu'
      obtain ⟨c'', hcx, hcu⟩ := hInv1.usOwner u set0 hu' sid hmemx
      rw [hl1] at hcx
      rw [Option.some_inj] at hcx
      rw [← hcx] at hcu
      exact huu hcu

/-- Once a stale session is reached by the reaper's sweep, it is cleaned
out, and sweeping the remaining keys never resurrects it. -/
theorem cleanupGo_removes (now : Nat) (sid : String) :
    ∀ (l : List String) (t : ServerState), Inv t → sid ∈ l →
      ∀ sess, lookupA sid t.connections = some sess → isStale now sess = true →
        AbsentAll sid (cleanupGo now l t).1 := by
  intro l
  induction l with
  | nil => intro t _ hmem; exact absurd hmem (List.not_mem_nil sid)
  | cons o rest ih =>
    intro t hInv hmem sess hlk hst
    unfold cleanupGo
    by_cases hos : o = sid
    · rw [hos]
      simp only [hlk, if_pos hst]
      exact absentAll_cleanupGo now sid rest _
        (absentAll_eraseConn sid sid _ (disconnect_absentAll sid t hInv sess hlk))
    · have hmem' : sid ∈ rest := by
        rcases List.mem_cons.mp hmem with hh | hh
        · exact absurd hh.symm hos
        · exact hh
      cases hc : lookupA o t.connections with
      | none => exact ih t hInv hmem' sess hlk hst
      | some conn =>
        by_cases hstO : isStale now conn = true
        · simp only [if_pos hstO]
          have hInvD : Inv (handleDisconnect o conn.userId t).1 :=
            inv_disconnect o t hInv conn hc
          have heq : eraseA o (handleDisconnect o conn.userId t).1.connections =
              (handleDisconnect o conn.userId t).1.connections :=
            eraseA_of_lookupA_none o _ (handleDisconnect_lookup_self o conn.userId t)
          have hInv2 : Inv { (handleDisconnect o conn.userId t).1 with
              connections := eraseA o (handleDisconnect o conn.userId t).1.connections } := by
            rw [serverState_eta_conn _ _ heq]
            exact hInvD
          have hlk2 : lookupA sid
              (eraseA o (handleDisconnect o conn.userId t).1.connections) = some sess := by
            rw [lookupA_eraseA, if_neg (fun hh : sid = o => hos hh.symm)]
            rw [disconnect_lookup_other o conn.userId sid t hos]
            exact hlk
          exact ih _ hInv2 hmem' sess hlk2 hst
        · simp only [if_neg hstO]
          exact ih t hInv hmem' sess hlk hst

/-- A sweep over keys none of which resolve to a stale session is a
complete no-op. -/
theorem cleanupGo_no_stale (now : Nat) :
    ∀ (l : List String) (t : ServerState),
      (∀ o ∈ l, ∀ oc, lookupA o t.connections = some oc → isStale now oc = false) →
      cleanupGo now l t = (t, []) := by
  intro l
  induction l with
  | nil => intro t _; rfl
  | cons o rest ih =>
    intro t h
    unfold cleanupGo
    cases hc : lookupA o t.connections with
    | none => exact ih t (fun o' ho' oc hoc => h o' (List.mem_cons_of_mem o ho') oc hoc)
    | some conn =>
      have hfalse : isStale now conn = false := h o (List.mem_cons_self o rest) conn hc
      have hnotst : ¬ isStale now conn = true := by
        rw [hfalse]
        exact Bool.false_ne_true
      simp only [if_neg hnotst]
      exact ih t (fun o' ho' oc hoc => h o' (List.mem_cons_of_mem o ho') oc hoc)

/-- When the swept list contains exactly one stale session `sid`, the whole
sweep equals the voluntary-disconnect cleanup of `sid`. -/
theorem cleanupGo_single_stale (now : Nat) (sid : String) :
    ∀ (l : List String) (t : ServerState) (sess : Session), Inv t →
      lookupA sid t.connections = some sess → isStale now sess = true → sid ∈ l →
      (∀ o, o ∈ l → o ≠ sid → ∀ oc, lookupA o t.connections = some oc →
        isStale now oc = false) →
      (cleanupGo now l t).1 = (handleDisconnect sid sess.userId t).1 := by
  intro l
  induction l with
  | nil => intro t sess _ _ _ hmem; exact absurd hmem (List.not_mem_nil sid)
  | cons o rest ih =>
    intro t sess hInv hlk hst hmem honly
    unfold cleanupGo
    by_cases hos : o = sid
    · rw [hos]
      simp only [hlk, if_pos hst]
      rw [forceDisconnect_fst sid sess.userId t]
      have heq : eraseA sid (handleDisconnect sid sess.userId t).1.connections =
          (handleDisconnect sid sess.userId t).1.connections :=
        eraseA_of_lookupA_none sid _ (handleDisconnect_lookup_self sid sess.userId t)
      have hs2 : { (handleDisconnect sid sess.userId t).1 with
          connections := eraseA sid (handleDisconnect sid sess.userId t).1.connections } =
          (handleDisconnect sid sess.userId t).1 := serverState_eta_conn _ _ heq
      have hrest : cleanupGo now rest { (handleDisconnect sid sess.userId t).1 with
          connections := eraseA sid (handleDisconnect sid sess.userId t).1.connections } =
          ({ (handleDisconnect sid sess.userId t).1 with
             connections := eraseA sid (handleDisconnect sid sess.userId t).1.connections },
           []) := by
        apply cleanupGo_no_stale
        intro o' ho' oc hoc
        have hoc' : lookupA o'
            (eraseA sid (handleDisconnect sid sess.userId t).1.connections) = some oc := hoc
        rw [heq] at hoc'
        by_cases ho's : o' = sid
        · rw [ho's, handleDisconnect_lookup_self sid sess.userId t] at hoc'
          exact Option.noConfusion hoc'
        · rw [disconnect_lookup_other sid sess.userId o' t
            (fun hh => ho's hh.symm)] at hoc'
          exact honly o' (List.mem_cons_of_mem o ho') ho's oc hoc'
      rw [hrest]
      exact hs2
    · have hmem' : sid ∈ rest := by
        rcases List.mem_cons.mp hmem with hh | hh
        · exact absurd hh.symm hos
        · exact hh
      cases hc : lookupA o t.connections with
      | none =>
        exact ih t sess hInv hlk hst hmem'
          (fun o' ho' hne oc hoc => honly o' (List.mem_cons_of_mem o ho') hne oc hoc)
      | some conn =>
        have hfalse : isStale now conn = false :=
          honly o (List.mem_cons_self o rest) hos conn hc
        have hnotst : ¬ isStale now conn = true := by
          rw [hfalse]
          exact Bool.false_ne_true
        simp only [if_neg hnotst]
        exact ih t sess hInv hlk hst hmem'
          (fun o' ho' hne oc hoc => honly o' (List.mem_cons_of_mem o ho') hne oc hoc)

/-- Claim C3: for every registered session whose elapsed time since the
later of last-heartbeat and connected-at strictly exceeds the five-minute
threshold, one run of the reaper removes the session from the registry,
from every room's member set and from every user's multi-device set; and
when it is the only stale session, the run's final state is exactly the
voluntary-disconnect state, so the room it occupied either shrinks by one
member or — if it was the sole member — has its entry removed. -/
theorem reaper_cleans_stale (now : Nat) (s : ServerState) (sid : String) (sess : Session)
    (hInv : Inv s) (hreg : lookupA sid s.connections = some sess)
    (hstale : isStale now sess = true) :
    lookupA sid (cleanupStaleConnections now s).1.connections = none ∧
    (∀ r mems, lookupA r (cleanupStaleConnections now s).1.rooms = some mems →
      sid ∉ mems) ∧
    (∀ u set0, lookupA u (cleanupStaleConnections now s).1.userSockets = some set0 →
      sid ∉ set0) ∧
    ((∀ o oc, lookupA o s.connections = some oc → o ≠ sid → isStale now oc = false) →
      (cleanupStaleConnections now s).1 = (handleDisconnect sid sess.userId s).1 ∧
      (∀ R mems, sess.roomId = some R → lookupA R s.rooms = some mems →
        lookupA R (cleanupStaleConnections now s).1.rooms =
          (if mems.erase sid = [] then none else some (mems.erase sid)) ∧
        (mems.erase sid).length + 1 = mems.length)) := by
  have hmemkeys : sid ∈ keysOf s.connections :=
    (mem_keysOf_iff_isSome sid s.connections).mpr (by rw [hreg]; rfl)
  obtain ⟨ha1, ha2, ha3⟩ :=
    cleanupGo_removes now sid (keysOf s.connections) s hInv hmemkeys sess hreg hstale
  refine ⟨ha1, ha2, ha3, ?_⟩
  intro honly
  have heqd : (cleanupStaleConnections now s).1 = (handleDisconnect sid sess.userId s).1 :=
    cleanupGo_single_stale now sid (keysOf s.connections) s sess hInv hreg hstale hmemkeys
      (fun o _ hne oc hoc => honly o oc hoc hne)
  refine ⟨heqd, ?_⟩
  intro R mems hro hm
  have hsidmem : sid ∈ mems := by
    obtain ⟨mems₀, hm₀, hmem₀⟩ := hInv.assignedMem sid sess hreg R hro
    rw [hm] at hm₀
    rw [Option.some_inj] at hm₀
    rw [hm₀]
    exact hmem₀
  constructor
  · rw [heqd]
    show lookupA R (leaveRoom sid s).1.rooms = _
    rw [leaveRoom_of_room sid s sess R hreg hro]
    show lookupA R (removeFromSetMap R sid s.rooms) = _
    rw [lookupA_removeFromSetMap_self, hm]
    rfl
  · have hpos : 0 < mems.length := List.length_pos_of_mem hsidmem
    rw [List.length_erase_of_mem hsidmem]
    omega

/-- Witness for C3: at `now = 600001` ms Bob's session (connected at 0, no
pings) is stale; one reaper run removes "s2" from the registry, from every
room and from every multi-device set. -/
theorem reaper_cleans_stale_witness :
    Inv stateA ∧
    lookupA "s2" stateA.connections = some bobSessA ∧
    isStale 600001 bobSessA = true ∧
    lookupA "s2" (cleanupStaleConnections 600001 stateA).1.connections = none ∧
    (∀ r mems, lookupA r (cleanupStaleConnections 600001 stateA).1.rooms = some mems →
      "s2" ∉ mems) ∧
    (∀ u set0, lookupA u (cleanupStaleConnections 600001 stateA).1.userSockets = some set0 →
      "s2" ∉ set0) := by
  have hInv : Inv stateA := reachable_inv reach_stateA
  have h := reaper_cleans_stale 600001 stateA "s2" bobSessA hInv (by decide) (by decide)
  exact ⟨hInv, by decide, by decide, h.1, h.2.1, h.2.2.1⟩

/-!
## Claim C4: admin:kick event order
-/

/-- Claim C4: for an admin caller and a target registered and in room `R`,
`admin:kick` produces exactly this event order: first the `kicked` event to
the target (carrying the actor's name and the reason), then the
`participant:left` fan-out to the remaining members of `R` — which never
includes the target — and only then the forced termination of the target's
transport; afterwards the target is absent from `R`'s membership set. -/
theorem admin_kick_order (s : ServerState) (csid cname tsid rtext : String)
    (tgt : Session) (R : String) (mems : List String)
    (ht : lookupA tsid s.connections = some tgt)
    (hro : tgt.roomId = some R)
    (hm : lookupA R s.rooms = some mems)
    (hnd : mems.Nodup)
    (hre : rtext ≠ "") :
    (handleKick csid cname "admin" tsid (some rtext) s).2 =
      Event.kicked tsid cname rtext ::
        ((mems.erase tsid).map (fun t => Event.participantLeft t tgt.userId tgt.userName)
          ++ [Event.terminated tsid]) ∧
    tsid ∉ mems.erase tsid ∧
    (∀ mems', lookupA R (handleKick csid cname "admin" tsid (some rtext) s).1.rooms =
        some mems' → tsid ∉ mems') := by
  have hrole : ¬ (("admin" : String) ≠ "admin") := fun h => h rfl
  have hchar := leaveRoom_of_room tsid s tgt R ht hro
  have hAud := audience_after_remove R tsid s mems hm
  have hl1 : lookupA tsid (leaveRoom tsid s).1.connections = some { tgt with roomId := none } :=
    leaveRoom_lookup_self tsid s tgt ht
  have hnoop : leaveRoom tsid (leaveRoom tsid s).1 = ((leaveRoom tsid s).1, []) :=
    leaveRoom_of_noroom tsid (leaveRoom tsid s).1 { tgt with roomId := none } hl1 rfl
  have hkick : handleKick csid cname "admin" tsid (some rtext) s =
      ((forceDisconnect tsid tgt.userId (leaveRoom tsid s).1).1,
       Event.kicked tsid cname rtext ::
         ((leaveRoom tsid s).2 ++ (forceDisconnect tsid tgt.userId (leaveRoom tsid s).1).2)) := by
    unfold handleKick
    rw [if_neg hrole]
    simp only [ht, if_neg hre]
  have hdisc2 : (forceDisconnect tsid tgt.userId (leaveRoom tsid s).1).2 =
      [Event.terminated tsid] := by
    show Event.terminated tsid :: (handleDisconnect tsid tgt.userId (leaveRoom tsid s).1).2 = _
    have h0 : (handleDisconnect tsid tgt.userId (leaveRoom tsid s).1).2 = [] := by
      show (leaveRoom tsid (leaveRoom tsid s).1).2 = []
      rw [hnoop]
    rw [h0]
  have hevs1 : (leaveRoom tsid s).2 =
      (mems.erase tsid).map (fun t => Event.participantLeft t tgt.userId tgt.userName) := by
    rw [hchar]
    show ((lookupA R (removeFromSetMap R tsid s.rooms)).getD []).map _ = _
    rw [hAud]
  have hrooms : (handleKick csid cname "admin" tsid (some rtext) s).1.rooms =
      removeFromSetMap R tsid s.rooms := by
    rw [hkick]
    show (leaveRoom tsid (leaveRoom tsid s).1).1.rooms = _
    rw [hnoop]
    show (leaveRoom tsid s).1.rooms = _
    rw [hchar]
  refine ⟨?_, ?_, ?_⟩
  · rw [hkick]
    show Event.kicked tsid cname rtext ::
      ((leaveRoom tsid s).2 ++ (forceDisconnect tsid tgt.userId (leaveRoom tsid s).1).2) = _
    rw [hevs1, hdisc2]
  · intro hx
    exact (hnd.mem_erase_iff.mp hx).1 rfl
  · intro mems' hlk'
    rw [hrooms, lookupA_removeFromSetMap_self, hm] at hlk'
    have hlk2 : (if mems.erase tsid = [] then none else some (mems.erase tsid)) =
        some mems' := hlk'
    by_cases hnil : mems.erase tsid = []
    · rw [if_pos hnil] at hlk2
      exact Option.noConfusion hlk2
    · rw [if_neg hnil] at hlk2
      rw [Option.some_inj] at hlk2
      rw [← hlk2]
      intro hx
      exact (hnd.mem_erase_iff.mp hx).1 rfl

/-- Witness for C4: Alice (admin) kicks Bob with reason "disruptive";
Bob gets `kicked {by:'Alice', reason:'disruptive'}`, then Alice gets
`participant:left` for Bob, then Bob's transport is terminated, and room
"alpha" no longer contains "s2". -/
theorem admin_kick_order_witness :
    (lookupA "s2" stateA.connections = some bobSessA ∧ bobSessA.roomId = some "alpha" ∧
      lookupA "alpha" stateA.rooms = some ["s1", "s2"]) ∧
    (handleKick "s1" "Alice" "admin" "s2" (some "disruptive") stateA).2 =
      Event.kicked "s2" "Alice" "disruptive" ::
        ((["s1", "s2"].erase "s2").map
           (fun t => Event.participantLeft t bobSessA.userId bobSessA.userName)
          ++ [Event.terminated "s2"]) ∧
    (∀ mems', lookupA "alpha"
        (handleKick "s1" "Alice" "admin" "s2" (some "disruptive") stateA).1.rooms =
        some mems' → "s2" ∉ mems') := by
  have h := admin_kick_order stateA "s1" "Alice" "s2" "disruptive" bobSessA "alpha"
    ["s1", "s2"] (by decide) (by decide) (by decide) (by decide) (by decide)
  exact ⟨⟨by decide, by decide, by decide⟩, h.1, h.2.2⟩

/-!
## Claim C10: room:join of the current room is a leave/join pair, not a no-op
-/

/-- Claim C10: a session currently in room `R` that sends `room:join` for
the same `R` first executes the full leave of `R` — fanning out
`participant:left` to the other members — and is then re-added and
announced to the same members with `participant:joined`; the final
membership holds the session again (moved to the back of the set's
insertion order).  Joining one's current room is therefore a leave/join
event pair, not a no-op. -/
theorem rejoin_same_room_leave_join_pair (sid uid uname : String) (s : ServerState)
    (sess : Session) (R : String) (mems : List String)
    (h1 : lookupA sid s.connections = some sess) (h2 : sess.roomId = some R)
    (hm : lookupA R s.rooms = some mems) (hnd : mems.Nodup) (hmem : sid ∈ mems)
    (hRe : R ≠ "") :
    (handleJoin sid uid uname (some R) s).2 =
      (mems.erase sid).map (fun t => Event.participantLeft t sess.userId sess.userName)
        ++ [Event.roomJoined sid R
              (getRoomParticipants R (handleJoin sid uid uname (some R) s).1)]
        ++ (mems.erase sid).map (fun t => Event.participantJoined t uid uname sid)
        ++ [Event.roomState sid R
              (getRoomParticipants R (handleJoin sid uid uname (some R) s).1)
              (getRoomParticipants R (handleJoin sid uid uname (some R) s).1).length] ∧
    lookupA R (handleJoin sid uid uname (some R) s).1.rooms =
      some (mems.erase sid ++ [sid]) := by
  have hchar := handleJoin_roomSome sid uid uname s R sess R hRe h1 h2
  have hlv := leaveRoom_of_room sid s sess R h1 h2
  have hbase2 : (lookupA R (leaveRoom sid s).1.rooms).getD [] = mems.erase sid := by
    rw [hlv]
    show (lookupA R (removeFromSetMap R sid s.rooms)).getD [] = _
    exact audience_after_remove R sid s mems hm
  have hsidnot : sid ∉ mems.erase sid := fun hx => (hnd.mem_erase_iff.mp hx).1 rfl
  have hlkJoin : lookupA R (joinApply sid R (leaveRoom sid s).1).rooms =
      some (mems.erase sid ++ [sid]) := by
    show lookupA R (addToSetMap R sid (leaveRoom sid s).1.rooms) = _
    rw [lookupA_addToSetMap_self, hbase2, addS_of_not_mem sid _ hsidnot]
  have hothers : ((lookupA R (joinApply sid R (leaveRoom sid s).1).rooms).getD []).erase sid =
      mems.erase sid := by
    rw [hlkJoin]
    show (mems.erase sid ++ [sid]).erase sid = _
    rw [List.erase_append_right _ hsidnot]
    simp
  have hevs1 : (leaveRoom sid s).2 =
      (mems.erase sid).map (fun t => Event.participantLeft t sess.userId sess.userName) := by
    rw [hlv]
    show ((lookupA R (removeFromSetMap R sid s.rooms)).getD []).map _ = _
    rw [audience_after_remove R sid s mems hm]
  constructor
  · rw [hchar, hothers, hevs1]
  · rw [hchar]
    exact hlkJoin

/-- Witness for C10: Bob re-joins "alpha" while already in it; Alice gets
`participant:left` for Bob followed by `participant:joined`, and the room
set ends up as `["s1", "s2"]` again (Bob moved to the back). -/
theorem rejoin_same_room_leave_join_pair_witness :
    (lookupA "s2" stateA.connections = some bobSessA ∧ bobSessA.roomId = some "alpha" ∧
      lookupA "alpha" stateA.rooms = some ["s1", "s2"]) ∧
    (handleJoin "s2" "u2" "Bob" (some "alpha") stateA).2 =
      (["s1", "s2"].erase "s2").map
          (fun t => Event.participantLeft t bobSessA.userId bobSessA.userName)
        ++ [Event.roomJoined "s2" "alpha"
              (getRoomParticipants "alpha" (handleJoin "s2" "u2" "Bob" (some "alpha") stateA).1)]
        ++ (["s1", "s2"].erase "s2").map (fun t => Event.participantJoined t "u2" "Bob" "s2")
        ++ [Event.roomState "s2" "alpha"
              (getRoomParticipants "alpha" (handleJoin "s2" "u2" "Bob" (some "alpha") stateA).1)
              (getRoomParticipants "alpha"
                (handleJoin "s2" "u2" "Bob" (some "alpha") stateA).1).length] ∧
    lookupA "alpha" (handleJoin "s2" "u2" "Bob" (some "alpha") stateA).1.rooms =
      some (["s1", "s2"].erase "s2" ++ ["s2"]) := by
  have h := rejoin_same_room_leave_join_pair "s2" "u2" "Bob" stateA bobSessA "alpha"
    ["s1", "s2"] (by decide) (by decide) (by decide) (by decide) (by decide) (by decide)
  exact ⟨⟨by decide, by decide, by decide⟩, h.1, h.2⟩

/-- Witness for the amended C7. -/
theorem duplicate_register_overwrites_witness :
    lookupA "s1" stateA.connections = some aliceSessA ∧
    (handleConnect "s1" "u9" "Eve" "member" 99 stateA).2 = [] ∧
    lookupA "s1" (handleConnect "s1" "u9" "Eve" "member" 99 stateA).1.connections =
      some { userId := "u9", userName := "Eve", userRole := "member",
             connectedAt := 99, roomId := none, isActive := true,
             audioMuted := false, lastPing := none } ∧
    (handleConnect "s1" "u9" "Eve" "member" 99 stateA).1.rooms = stateA.rooms :=
  ⟨by decide, duplicate_register_overwrites "s1" "u9" "Eve" "member" 99 stateA
    aliceSessA (by decide)⟩

end DailyWS
